import Mathlib

/-!
Verification of the document-generation workflow of this repository against
its natural-language specification.

Part 1 embeds `src/config/document_catalog.py`: the typed document
definitions and the depth-first dependency resolver `resolve_dependencies`.
Part 2 embeds the quality gate `_run_agent_with_quality_loop` of
`src/coordination/coordinator.py` (the async variant has the identical
control flow and is covered by the same model).
Part 3 embeds the result-collection skeleton of `generate_all_docs`.

Machine integers do not occur in the modelled code; quality scores are
Python floats used only for threshold comparisons and are modelled as
rationals.
-/

namespace DocumentCatalog

/-- Typed representation of a single document definition, mirroring the
frozen dataclass `DocumentDefinition` of `document_catalog.py`. -/
structure DocumentDefinition where
  id : String
  name : String
  prompt_key : Option String
  agent_class : String
  dependencies : List String
  category : Option String := none
  description : Option String := none
  priority : Option String := none
  owner : Option String := none
  status : Option String := none
  audience : Option String := none
  stage_label : Option String := none
  stage_notes : Option String := none
  must_have : Option String := none
  usage_frequency : Option String := none
  notes : Option String := none
  special_key : Option String := none
deriving DecidableEq

/-- The catalog `definitions : Dict[str, DocumentDefinition]`, modelled as an
association list keyed by document id (first binding wins, as in a dict whose
keys are unique). -/
abbrev Definitions := List (String × DocumentDefinition)

/-- Dictionary lookup `definitions.get(doc_id)`. -/
def lookupDef : Definitions → String → Option DocumentDefinition
  | [], _ => none
  | (k, v) :: rest, key => if k = key then some v else lookupDef rest key

/-- The mutable state of `resolve_dependencies`: the three-colour marking
(`visiting` = in-progress set, `visited` = done set) and the output list
`order`.  The two Python sets are modelled as lists used only through
membership, insertion and removal. -/
structure ResolveState where
  visiting : List String
  visited : List String
  order : List String
deriving DecidableEq

/-- The two `ValueError`s that `resolve_dependencies` can raise, told apart
by their messages: `"Dependency cycle detected involving '<id>'"` and
`"Unknown document id '<id>'"`.  The spec calls them `CycleError` and
`UnknownDependencyError`. -/
inductive ResolveError where
  | cycleError (doc_id : String)
  | unknownDocumentError (doc_id : String)
deriving DecidableEq

/-- Sequentially visit a list of ids, threading the resolver state and
propagating the first raised error.  This is both the `for dep_id in
definition.dependencies` loop and the top-level `for doc_id in
dict.fromkeys(selected_ids)` loop of `resolve_dependencies`.  `none` means
the (purely artificial) fuel ran out; `visit_isSome` shows the fuel chosen
by `resolve_dependencies` never does. -/
def visitDeps (v : String → ResolveState → Option (Except ResolveError ResolveState)) :
    List String → ResolveState → Option (Except ResolveError ResolveState)
  | [], st => some (Except.ok st)
  | d :: rest, st =>
    match v d st with
    | none => none
    | some (Except.error e) => some (Except.error e)
    | some (Except.ok st1) => visitDeps v rest st1

/-- The inner `visit(doc_id)` of `resolve_dependencies`, with a fuel
parameter bounding recursion depth (the Python recursion is bounded by the
number of catalog keys, since every nested call pushes a fresh defined id
onto `visiting`). -/
def visit (definitions : Definitions) : Nat → String → ResolveState →
    Option (Except ResolveError ResolveState)
  | 0, _, _ => none
  | Nat.succ fuel, doc_id, st =>
    if doc_id ∈ st.visited then some (Except.ok st)
    else if doc_id ∈ st.visiting then
      some (Except.error (ResolveError.cycleError doc_id))
    else
      match lookupDef definitions doc_id with
      | none => some (Except.error (ResolveError.unknownDocumentError doc_id))
      | some defn =>
        match visitDeps (visit definitions fuel) defn.dependencies
            { st with visiting := doc_id :: st.visiting } with
        | none => none
        | some (Except.error e) => some (Except.error e)
        | some (Except.ok st2) =>
          some (Except.ok { visiting := st2.visiting.erase doc_id,
                            visited := doc_id :: st2.visited,
                            order := st2.order ++ [doc_id] })

/-- Python's `dict.fromkeys`: drop duplicates, keeping the first occurrence
of each id in order. -/
def fromKeysAux (seen : List String) : List String → List String
  | [] => []
  | x :: xs => if x ∈ seen then fromKeysAux seen xs else x :: fromKeysAux (x :: seen) xs

/-- First-occurrence deduplication of the selected ids. -/
def fromKeys (l : List String) : List String := fromKeysAux [] l

/-- The distinct keys of the catalog. -/
def catalogKeys (definitions : Definitions) : List String :=
  (definitions.map Prod.fst).dedup

/-- A recursion-depth budget that is always sufficient: one more than the
number of distinct catalog keys (see `visit_isSome`). -/
def resolveFuel (definitions : Definitions) : Nat :=
  (catalogKeys definitions).length + 1

/-- The initial resolver state: both mark sets and the output list empty. -/
def initState : ResolveState := { visiting := [], visited := [], order := [] }

/-- `resolve_dependencies(selected_ids)`: resolve dependencies for the given
document ids with topological ordering.  The `getD` default is unreachable
because the fuel is always sufficient (`resolve_total`); it only makes the
function total by construction, exactly as the Python function is. -/
def resolve_dependencies (definitions : Definitions) (selected_ids : List String) :
    Except ResolveError (List String) :=
  ((visitDeps (visit definitions (resolveFuel definitions)) (fromKeys selected_ids)
      initState).map (fun r => r.map ResolveState.order)).getD (Except.ok [])

/-- The dependency edge relation of the catalog: `x` depends on `y` (the
definition of `x` declares `y`). -/
def Edge (definitions : Definitions) (x y : String) : Prop :=
  ∃ d, lookupDef definitions x = some d ∧ y ∈ d.dependencies

/-- Reflexive-transitive reachability along dependency edges. -/
inductive Reaches (definitions : Definitions) : String → String → Prop where
  | refl (x : String) : Reaches definitions x x
  | step {x y z : String} : Edge definitions x y → Reaches definitions y z →
      Reaches definitions x z

/-- The id `x` lies on a dependency cycle. -/
def OnCycle (definitions : Definitions) (x : String) : Prop :=
  ∃ y, Edge definitions x y ∧ Reaches definitions y x

/-- Topological validity of an output list: every element is defined in the
catalog and all of its declared dependencies appear strictly before it. -/
def TopoValid (definitions : Definitions) (l : List String) : Prop :=
  ∀ l1 x l2, l = l1 ++ x :: l2 →
    ∃ d, lookupDef definitions x = some d ∧ ∀ dep ∈ d.dependencies, dep ∈ l1

/-- The in-progress stack is a chain: each id was pushed while visiting a
dependency of the id below it. -/
inductive StackChain (definitions : Definitions) : List String → Prop where
  | nil : StackChain definitions []
  | single (x : String) : StackChain definitions [x]
  | cons {x y : String} {rest : List String} : Edge definitions y x →
      StackChain definitions (y :: rest) → StackChain definitions (x :: y :: rest)

/-- The resolver-state invariant maintained by `visit`. -/
structure ResolveInv (definitions : Definitions) (st : ResolveState) : Prop where
  nodup_visiting : st.visiting.Nodup
  visiting_defined : ∀ x ∈ st.visiting, (lookupDef definitions x).isSome
  visiting_not_visited : ∀ x ∈ st.visiting, x ∉ st.visited
  visited_iff_order : ∀ x, x ∈ st.visited ↔ x ∈ st.order
  nodup_order : st.order.Nodup
  topo : TopoValid definitions st.order

/-- Postcondition of a successful `visit` of the ids `ids` from state `st`
to state `st1`. -/
def VisitPost (definitions : Definitions) (st st1 : ResolveState)
    (ids : List String) : Prop :=
  ResolveInv definitions st1 ∧ st1.visiting = st.visiting ∧
    (∀ x ∈ st.visited, x ∈ st1.visited) ∧ (∀ x ∈ ids, x ∈ st1.visited) ∧
    (∃ t, st1.order = st.order ++ t)

/-- The head of the in-progress stack (when there is one) declares `d` as a
dependency: the relation between a `visit` call and the visit that spawned
it. -/
def HeadEdge (definitions : Definitions) (s : List String) (d : String) : Prop :=
  ∀ hd tl, s = hd :: tl → Edge definitions hd d

/-- The number of defined catalog ids not yet on the in-progress stack: the
quantity that bounds the remaining recursion depth of `visit`. -/
def freeCount (definitions : Definitions) (visiting : List String) : Nat :=
  ((catalogKeys definitions).toFinset \ visiting.toFinset).card

/-- Look up the rank of an id in an explicit ranking, defaulting to 0.
Used only by the acyclicity certificate below. -/
def rankOf (ranks : List (String × Nat)) (x : String) : Nat :=
  match ranks with
  | [] => 0
  | (k, r) :: rest => if k = x then r else rankOf rest x

/-- Executable acyclicity certificate: a ranking under which every
dependency edge into a defined id strictly decreases.  `acyclic_of_cert`
shows any catalog admitting such a ranking has no dependency cycle. -/
def acyclicCertB (definitions : Definitions) (ranks : List (String × Nat)) : Bool :=
  definitions.all (fun p => p.2.dependencies.all (fun dep =>
    !(lookupDef definitions dep).isSome ||
      decide (rankOf ranks dep < rankOf ranks p.1)))

/-- The dependency data actually consulted by the resolver: each catalog
entry reduced to its key and its ordered dependency list. -/
def depView (definitions : Definitions) : List (String × List String) :=
  definitions.map (fun p => (p.1, p.2.dependencies))

/-- Build a catalog entry with the given id and dependency list (the other
fields take the values `load_document_definitions` defaults to). -/
def mkDefinition (i : String) (deps : List String) : DocumentDefinition :=
  { id := i, name := i, prompt_key := none, agent_class := "generic",
    dependencies := deps }

/-- Does the resolver outcome carry the cycle error? -/
def isCycleError : Except ResolveError (List String) → Bool
  | Except.error (ResolveError.cycleError _) => true
  | _ => false

/-- Does the resolver outcome carry the unknown-document error? -/
def isUnknownError : Except ResolveError (List String) → Bool
  | Except.error (ResolveError.unknownDocumentError _) => true
  | _ => false

/-- An acyclic three-document catalog with a shared dependency. -/
def diamondCatalog : Definitions :=
  [("requirements", mkDefinition "requirements" []),
   ("charter", mkDefinition "charter" ["requirements"]),
   ("stories", mkDefinition "stories" ["requirements", "charter"])]

/-- A ranking certifying `diamondCatalog` acyclic. -/
def diamondRanks : List (String × Nat) :=
  [("requirements", 0), ("charter", 1), ("stories", 2)]

/-- Catalog with both an unknown dependency and a cycle, the unknown one
listed first. -/
def cycleAfterUnknownCatalog : Definitions :=
  [("alpha", mkDefinition "alpha" ["missing", "beta"]),
   ("beta", mkDefinition "beta" ["beta"])]

/-- Catalog with both a cycle and an unknown dependency, the cycle entered
first. -/
def unknownAfterCycleCatalog : Definitions :=
  [("alpha", mkDefinition "alpha" ["beta", "missing"]),
   ("beta", mkDefinition "beta" ["alpha"])]

/-- A fully defined two-document cycle. -/
def twoCycleCatalog : Definitions :=
  [("alpha", mkDefinition "alpha" ["beta"]),
   ("beta", mkDefinition "beta" ["alpha"])]

/-- An acyclic catalog with one dangling dependency. -/
def danglingCatalog : Definitions :=
  [("alpha", mkDefinition "alpha" ["beta", "missing"]),
   ("beta", mkDefinition "beta" [])]

/-- A ranking certifying `danglingCatalog` acyclic. -/
def danglingRanks : List (String × Nat) :=
  [("alpha", 1), ("beta", 0)]

/-- Catalog for the duplicate-selection run. -/
def sharedDepCatalog : Definitions :=
  [("left", mkDefinition "left" ["base"]),
   ("right", mkDefinition "right" ["base"]),
   ("base", mkDefinition "base" [])]

/-- A catalog variant pair differing only in fields the resolver ignores. -/
def variantCatalogA : Definitions :=
  [("alpha", mkDefinition "alpha" ["beta"]),
   ("beta", mkDefinition "beta" [])]

/-- Same dependency structure as `variantCatalogA`, different names and
descriptions. -/
def variantCatalogB : Definitions :=
  [("alpha", { id := "alpha", name := "Alpha II", prompt_key := some "p",
               agent_class := "special", dependencies := ["beta"],
               description := some "changed" }),
   ("beta", { id := "beta", name := "Beta II", prompt_key := none,
              agent_class := "generic", dependencies := [],
              owner := some "someone" })]

end DocumentCatalog

namespace QualityGate

/-- One collaborator call made by the quality gate, recorded in order.  The
trace lets call-count properties (improve called exactly once / never) be
stated about the model. -/
inductive GateEvent where
  | generate_v1
  | check_quality_v1
  | generate_feedback
  | improve_document
  | write_v2
  | save_context
  | check_quality_v2
deriving DecidableEq, BEq

/-- The fields of the quality-check result dictionary that the gate reads:
`overall_score` plus the three detail sub-dictionaries forwarded to the
improver. -/
structure QualityResult where
  overall_score : Rat
  word_count : String
  sections : String
  readability : String

/-- The `quality_details_for_improver` dictionary built from a V1 quality
result. -/
structure QualityDetails where
  word_count : String
  sections : String
  readability : String
deriving DecidableEq

/-- The collaborators of `_run_agent_with_quality_loop`, as deterministic
oracles that either return a value or raise (model of one concrete run).
`generate_v1` bundles `agent_instance.generate_and_save` plus the follow-up
`file_manager.read_file` (both inside the same `try`), returning the V1 file
path and content.  Quality scores are Python floats compared against the
threshold; they are modelled as rationals. -/
structure GateEnv where
  generate_v1 : Except String (String × String)
  get_checklist : Except String (Option String)
  check_quality_for_type : String → Except String QualityResult
  check_quality_base : String → Except String QualityResult
  generate_feedback : String → Except String String
  improve_document : String → String → Rat → Option QualityDetails →
    Except String String
  write_file : String → Except String String
  save_context : Except String Unit
  check_quality_v2 : String → Except String QualityResult

/-- Step 2 of the quality loop: obtain the checklist and run the matching
checker; any exception anywhere in the block yields score 0 and no stored
quality result (`score = 0; quality_result_v1 = None`). -/
def scoreV1 (env : GateEnv) (v1_content : String) : Rat × Option QualityResult :=
  match env.get_checklist with
  | Except.error _ => (0, none)
  | Except.ok checklist =>
    match (if checklist.isSome then env.check_quality_for_type v1_content
           else env.check_quality_base v1_content) with
    | Except.error _ => (0, none)
    | Except.ok qr => (qr.overall_score, some qr)

/-- The simplified inline feedback text used when the quality reviewer
raises in step 3a. -/
def fallback_feedback (agent_value : String) (score threshold : Rat) : String :=
  "Quality Review for " ++ agent_value ++ ": current score " ++ toString score ++
    ", threshold " ++ toString threshold ++
    ", document quality is below the required threshold"

/-- Step 3a: actionable feedback, falling back to the inline text when the
reviewer raises. -/
def feedbackV1 (env : GateEnv) (agent_value v1_content : String)
    (score threshold : Rat) : String :=
  match env.generate_feedback v1_content with
  | Except.ok feedback_report => feedback_report
  | Except.error _ => fallback_feedback agent_value score threshold

/-- The `quality_details_for_improver` value: present exactly when a V1
quality result was stored. -/
def detailsOf : Option QualityResult → Option QualityDetails
  | none => none
  | some qr => some ⟨qr.word_count, qr.sections, qr.readability⟩

/-- Default `quality_threshold` of both quality-loop methods. -/
def default_quality_threshold : Rat := 80

/-- The quality gate `_run_agent_with_quality_loop` of
`coordinator.py` (the async variant `_async_run_agent_with_quality_loop`
has the identical control flow and is covered by the same model): generate
V1 (failure propagates), score it (failure counts as 0), return V1 when the
score meets the threshold, otherwise run exactly one improvement pass and
return V2, falling back to V1 when improving or saving raises.  The result
carries the trace of collaborator calls. -/
def run_agent_with_quality_loop (env : GateEnv) (agent_value : String)
    (quality_threshold : Rat) :
    Except String ((String × String) × List GateEvent) :=
  match env.generate_v1 with
  | Except.error e => Except.error e
  | Except.ok (v1_file_path, v1_content) =>
    let tr1 : List GateEvent := [GateEvent.generate_v1, GateEvent.check_quality_v1]
    let sc := scoreV1 env v1_content
    if quality_threshold ≤ sc.1 then
      Except.ok ((v1_file_path, v1_content), tr1)
    else
      let feedback := feedbackV1 env agent_value v1_content sc.1 quality_threshold
      let tr2 := tr1 ++ [GateEvent.generate_feedback]
      match env.improve_document v1_content feedback sc.1 (detailsOf sc.2) with
      | Except.error _ =>
        Except.ok ((v1_file_path, v1_content), tr2 ++ [GateEvent.improve_document])
      | Except.ok improved_doc =>
        match env.write_file improved_doc with
        | Except.error _ =>
          Except.ok ((v1_file_path, v1_content),
            tr2 ++ [GateEvent.improve_document, GateEvent.write_v2])
        | Except.ok v2_file_path =>
          Except.ok ((v2_file_path, improved_doc),
            tr2 ++ [GateEvent.improve_document, GateEvent.write_v2,
              GateEvent.save_context, GateEvent.check_quality_v2])

/-- A quality result with the given overall score and fixed detail fields. -/
def sampleQualityResult (score : Rat) : QualityResult :=
  { overall_score := score, word_count := "wc", sections := "sec",
    readability := "read" }

/-- A run in which V1 scores 65: below the default threshold, with a
successful improvement pass. -/
def lowScoreEnv : GateEnv :=
  { generate_v1 := Except.ok ("docs/requirements.md", "v1 text")
    get_checklist := Except.ok (some "requirements checklist")
    check_quality_for_type := fun _ => Except.ok (sampleQualityResult 65)
    check_quality_base := fun _ => Except.ok (sampleQualityResult 60)
    generate_feedback := fun _ => Except.ok "feedback report"
    improve_document := fun _ _ _ _ => Except.ok "v2 text"
    write_file := fun _ => Except.ok "docs/requirements_v2.md"
    save_context := Except.ok ()
    check_quality_v2 := fun _ => Except.ok (sampleQualityResult 90) }

/-- A run in which V1 scores 95: above the default threshold. -/
def highScoreEnv : GateEnv :=
  { lowScoreEnv with
    check_quality_for_type := fun _ => Except.ok (sampleQualityResult 95) }

/-- A run in which the V1 quality checker raises. -/
def scoreRaisesEnv : GateEnv :=
  { lowScoreEnv with
    check_quality_for_type := fun _ => Except.error "checker crashed" }

end QualityGate

namespace Workflow

/-- Modelled from the spec: the `AgentType` enum of
`src.context.shared_context`, a module whose file is not under `src/`; the
spec describes task descriptors keyed by an extensible output-type tag.  The
constructors are the members named by `coordinator.py`; `other` covers any
further member. -/
inductive AgentType where
  | requirements_analyst
  | project_charter
  | user_stories
  | technical_documentation
  | database_schema
  | api_documentation
  | setup_guide
  | developer_documentation
  | test_documentation
  | user_documentation
  | legal_compliance
  | support_playbook
  | pm_documentation
  | stakeholder_communication
  | business_model
  | marketing_plan
  | other (value : String)
deriving DecidableEq

/-- Modelled from the spec: `agent_type.value`, the string tag of an enum
member. -/
def AgentType.value : AgentType → String
  | AgentType.requirements_analyst => "requirements_analyst"
  | AgentType.project_charter => "project_charter"
  | AgentType.user_stories => "user_stories"
  | AgentType.technical_documentation => "technical_documentation"
  | AgentType.database_schema => "database_schema"
  | AgentType.api_documentation => "api_documentation"
  | AgentType.setup_guide => "setup_guide"
  | AgentType.developer_documentation => "developer_documentation"
  | AgentType.test_documentation => "test_documentation"
  | AgentType.user_documentation => "user_documentation"
  | AgentType.legal_compliance => "legal_compliance"
  | AgentType.support_playbook => "support_playbook"
  | AgentType.pm_documentation => "pm_documentation"
  | AgentType.stakeholder_communication => "stakeholder_communication"
  | AgentType.business_model => "business_model"
  | AgentType.marketing_plan => "marketing_plan"
  | AgentType.other value => value

/-- The `doc_type_map` used when recording a failed Phase-1 task
(`doc_type_map.get(task.agent_type, task.agent_type.value)`). -/
def phase1DocType : AgentType → String
  | AgentType.requirements_analyst => "requirements"
  | AgentType.project_charter => "project_charter"
  | AgentType.user_stories => "user_stories"
  | AgentType.technical_documentation => "technical_documentation"
  | AgentType.database_schema => "database_schema"
  | t => t.value

/-- The `agent_type_to_doc_type` mapping of the Phase-2 result collection
(`get_doc_type_from_agent_type`). -/
def phase2DocType : AgentType → String
  | AgentType.api_documentation => "api_documentation"
  | AgentType.database_schema => "database_schema"
  | AgentType.setup_guide => "setup_guide"
  | AgentType.developer_documentation => "developer_documentation"
  | AgentType.test_documentation => "test_documentation"
  | AgentType.user_documentation => "user_documentation"
  | AgentType.legal_compliance => "legal_compliance"
  | AgentType.support_playbook => "support_playbook"
  | AgentType.pm_documentation => "pm_documentation"
  | AgentType.stakeholder_communication => "stakeholder_documentation"
  | AgentType.business_model => "business_model"
  | AgentType.marketing_plan => "marketing_plan"
  | t => t.value

/-- Modelled from the spec: a Phase-1 task descriptor (`Phase1Task` of
`src.coordination.workflow_dag`, not under `src/`): an identifier and the
agent (output type) it runs; only these two fields are read by the result
collection under verification. -/
structure Phase1Task where
  task_id : String
  agent_type : AgentType
deriving DecidableEq

/-- Modelled from the spec: a Phase-2 task descriptor (`Phase2Task`),
likewise reduced to the fields the result collection reads. -/
structure Phase2Task where
  task_id : String
  agent_type : AgentType
deriving DecidableEq

/-- Modelled from the spec: the executor's task status enum (`TaskStatus` of
`src.utils.async_parallel_executor`, not under `src/`).  The failed state
carries `task_status.error`, which may be absent. -/
inductive TaskStatus where
  | pending
  | running
  | complete
  | failed (error : Option String)
deriving DecidableEq

/-- An entry of the Phase-2 `failed_tasks` list. -/
structure FailedTask where
  task_id : String
  doc_type : String
  agent_type : String
  error : String
deriving DecidableEq

/-- An entry of the Phase-2 `successful_tasks` list. -/
structure SuccessfulTask where
  task_id : String
  doc_type : String
  agent_type : String
  file_path : String
deriving DecidableEq

/-- The `phase2_summary` dictionary stored in the results. -/
structure Phase2Summary where
  successful : List SuccessfulTask
  failed : List FailedTask
  total : Nat
  success_count : Nat
  failed_count : Nat
deriving DecidableEq

/-- The `execution_summary` dictionary stored after Phase 3: document
counts and the sorted, deduplicated lists of successful and failed document
types aggregated across all phases (the float `success_rate` field is
derived from the two counts and not modelled). -/
structure ExecutionSummary where
  total_documents : Nat
  successful_count : Nat
  failed_count : Nat
  successful_documents : List String
  failed_documents : List String
deriving DecidableEq

/-- The `results` dictionary built by `generate_all_docs`, restricted to the
keys the verified control flow writes: `files` and `status` (string-keyed
maps), the Phase-2 summary, the cross-phase execution summary, and the
`error` tag set by the top-level exception handler. -/
structure WorkflowResults where
  project_id : String
  files : String → Option String
  status : String → Option String
  phase2_summary : Option Phase2Summary
  execution_summary : Option ExecutionSummary
  error : Option String

/-- One concrete run's outcomes of everything `generate_all_docs` delegates
to: per-task Phase-1 results, the shared-context requirements check, the
Phase-2 executor states and file reads, the Phase-3 packaging steps, and a
possible exception anywhere else in the guarded region (all of it sits
inside the one top-level `try`). -/
structure WorkflowEnv where
  project_id : String
  phase1_tasks : List Phase1Task
  phase1_results : String → Option (String × String)
  context_has_requirements : Bool
  phase2_tasks : List Phase2Task
  phase2_state : String → Option TaskStatus
  phase2_file_path : String → Option String
  read_file : String → Except String String
  quality_review : Except String String
  claude_cli_doc : Except String String
  format_convert_all : Except String String
  format_convert_html : Except String String
  late_phase_error : Option String

/-- Write `results["status"][k] = v`. -/
def setStatus (r : WorkflowResults) (k v : String) : WorkflowResults :=
  { r with status := fun key => if key = k then some v else r.status key }

/-- Write `results["files"][k] = v`. -/
def setFile (r : WorkflowResults) (k v : String) : WorkflowResults :=
  { r with files := fun key => if key = k then some v else r.files key }

/-- The initial `results` dictionary of `generate_all_docs`. -/
def initResults (env : WorkflowEnv) : WorkflowResults :=
  { project_id := env.project_id, files := fun _ => none,
    status := fun _ => none, phase2_summary := none,
    execution_summary := none, error := none }

/-- Accumulator of the Phase-1 result loop: the results dictionary plus the
`req_content` variable. -/
structure Phase1Acc where
  results : WorkflowResults
  req_content : Option String

/-- Record a completed Phase-1 document: `results["files"][doc] = path` and
`results["status"][doc] = "complete_v2"`. -/
def recordPhase1 (r : WorkflowResults) (doc file_path : String) : WorkflowResults :=
  setStatus (setFile r doc file_path) doc "complete_v2"

/-- One iteration of the Phase-1 result loop: a present task result updates
`files`/`status` for the five foundational document kinds (and captures
`req_content` for the requirements task); a missing result marks the task's
document type failed. -/
def processPhase1Task (env : WorkflowEnv) (acc : Phase1Acc) (t : Phase1Task) :
    Phase1Acc :=
  match env.phase1_results t.task_id with
  | some (file_path, content) =>
    match t.agent_type with
    | AgentType.requirements_analyst =>
      { results := recordPhase1 acc.results "requirements" file_path,
        req_content := some content }
    | AgentType.project_charter =>
      { acc with results := recordPhase1 acc.results "project_charter" file_path }
    | AgentType.user_stories =>
      { acc with results := recordPhase1 acc.results "user_stories" file_path }
    | AgentType.technical_documentation =>
      { acc with results := recordPhase1 acc.results "technical_documentation" file_path }
    | AgentType.database_schema =>
      { acc with results := recordPhase1 acc.results "database_schema" file_path }
    | _ => acc
  | none =>
    { acc with results := setStatus acc.results (phase1DocType t.agent_type) "failed" }

/-- The whole Phase-1 result loop. -/
def processPhase1 (env : WorkflowEnv) : Phase1Acc :=
  env.phase1_tasks.foldl (processPhase1Task env)
    { results := initResults env, req_content := none }

/-- Accumulator of the Phase-2 result-collection loop. -/
structure Phase2Acc where
  results : WorkflowResults
  successful : List SuccessfulTask
  failed : List FailedTask

/-- One iteration of the Phase-2 result collection: a FAILED executor state
records a failed task (error defaulting to "Unknown error"); a COMPLETE
state with a file path records the file and reads it back, demoting to
failed when the read raises; anything else records an unknown status. -/
def processPhase2Task (env : WorkflowEnv) (acc : Phase2Acc) (t : Phase2Task) :
    Phase2Acc :=
  let doc_type := phase2DocType t.agent_type
  let file_path := env.phase2_file_path t.task_id
  match env.phase2_state t.task_id with
  | some (TaskStatus.failed err) =>
    let error_msg := err.getD "Unknown error"
    { acc with
      results := setStatus acc.results doc_type "failed"
      failed := acc.failed ++
        [⟨t.task_id, doc_type, t.agent_type.value, error_msg⟩] }
  | some TaskStatus.complete =>
    match file_path with
    | some fp =>
      let r1 := setStatus (setFile acc.results doc_type fp) doc_type "complete"
      match env.read_file fp with
      | Except.ok _ =>
        { acc with
          results := r1
          successful := acc.successful ++
            [⟨t.task_id, doc_type, t.agent_type.value, fp⟩] }
      | Except.error e =>
        { acc with
          results := setStatus r1 doc_type "failed"
          failed := acc.failed ++
            [⟨t.task_id, doc_type, t.agent_type.value,
              "Failed to read file: " ++ e⟩] }
    | none =>
      { acc with
        results := setStatus acc.results doc_type "unknown"
        failed := acc.failed ++
          [⟨t.task_id, doc_type, t.agent_type.value,
            "Task status unknown or incomplete"⟩] }
  | _ =>
    { acc with
      results := setStatus acc.results doc_type "unknown"
      failed := acc.failed ++
        [⟨t.task_id, doc_type, t.agent_type.value,
          "Task status unknown or incomplete"⟩] }

/-- The Phase-2 result collection plus the `phase2_summary` record. -/
def processPhase2 (env : WorkflowEnv) (r : WorkflowResults) : WorkflowResults :=
  let acc := env.phase2_tasks.foldl (processPhase2Task env)
    { results := r, successful := [], failed := [] }
  { acc.results with
    phase2_summary := some
      { successful := acc.successful
        failed := acc.failed
        total := env.phase2_tasks.length
        success_count := acc.successful.length
        failed_count := acc.failed.length } }

/-- Phase 3 (final packaging): every step swallows its own exceptions and at
most updates `files`/`status`. -/
def processPhase3 (env : WorkflowEnv) (r : WorkflowResults) : WorkflowResults :=
  let r1 := match env.quality_review with
    | Except.ok p => setStatus (setFile r "quality_review" p) "quality_review" "complete"
    | Except.error _ => setStatus r "quality_review" "failed"
  let r2 := match env.claude_cli_doc with
    | Except.ok p => setStatus (setFile r1 "claude_cli_documentation" p)
        "claude_cli_documentation" "complete"
    | Except.error _ => setStatus r1 "claude_cli_documentation" "failed"
  match env.format_convert_all with
  | Except.ok p => setStatus (setFile r2 "format_conversions" p)
      "format_conversions" "complete"
  | Except.error _ =>
    match env.format_convert_html with
    | Except.ok p => setStatus (setFile r2 "format_conversions" p)
        "format_conversions" "partial (HTML only)"
    | Except.error _ => setStatus r2 "format_conversions" "skipped"

/-- Was some requirements-analyst task's result collected?  This is the
`req_content` variable after the Phase-1 loop. -/
def reqContent (env : WorkflowEnv) : Option String :=
  (processPhase1 env).req_content

/-- Python falsiness of the `req_content` variable (`if not req_content:`):
falsy when it is still `None` and also when it holds the empty string. -/
def reqContentFalsy : Option String → Bool
  | none => true
  | some c => c.isEmpty

/-- Does a task result carry empty content?  (`none` carries no content at
all, so it is not the empty-content case.) -/
def resultContentEmpty : Option (String × String) → Bool
  | none => false
  | some (_, c) => c.isEmpty

/-- The `phase1_doc_types` list of the final execution summary. -/
def phase1DocTypes : List String :=
  ["requirements", "project_charter", "user_stories",
   "technical_documentation", "database_schema"]

/-- The `phase3_doc_types` list of the final execution summary. -/
def phase3DocTypes : List String :=
  ["quality_review", "claude_cli_documentation", "format_conversions",
   "document_index"]

/-- Does the first character list lead the second one? -/
def leadsWith : List Char → List Char → Bool
  | [], _ => true
  | _ :: _, [] => false
  | p :: ps, c :: cs => p == c && leadsWith ps cs

/-- Python's substring test `pat in s` over character lists. -/
def containsSub (pat : List Char) : List Char → Bool
  | [] => pat.isEmpty
  | c :: rest => leadsWith pat (c :: rest) || containsSub pat rest

/-- The Phase-3 success test of the execution summary:
`status == "complete" or "partial" in status.lower()`. -/
def phase3StatusSuccessful : Option String → Bool
  | none => false
  | some s => s == "complete" || containsSub "partial".data s.toLower.data

/-- `all_failed_docs`: Phase-1 document types whose status is "failed",
then the document types of the Phase-2 failed tasks, then Phase-3 document
types whose status is "failed" or "skipped". -/
def allFailedDocs (r : WorkflowResults) : List String :=
  phase1DocTypes.filter (fun d => r.status d == some "failed") ++
    (match r.phase2_summary with
     | none => []
     | some s => s.failed.map (fun e => e.doc_type)) ++
    phase3DocTypes.filter (fun d =>
      r.status d == some "failed" || r.status d == some "skipped")

/-- `all_successful_docs`: the success side of the same aggregation. -/
def allSuccessfulDocs (r : WorkflowResults) : List String :=
  phase1DocTypes.filter (fun d =>
      r.status d == some "complete" || r.status d == some "complete_v2") ++
    (match r.phase2_summary with
     | none => []
     | some s => s.successful.map (fun e => e.doc_type)) ++
    phase3DocTypes.filter (fun d => phase3StatusSuccessful (r.status d))

/-- Insert a string into a `≤`-sorted list. -/
def insertSorted (x : String) : List String → List String
  | [] => [x]
  | y :: ys => if x ≤ y then x :: y :: ys else y :: insertSorted x ys

/-- Insertion sort on strings. -/
def insertionSort : List String → List String
  | [] => []
  | x :: xs => insertSorted x (insertionSort xs)

/-- Python's `sorted(set(xs))` for string lists: distinct elements in
sorted order. -/
def pySortedSet (l : List String) : List String :=
  insertionSort (DocumentCatalog.fromKeys l)

/-- Store the `execution_summary` built from the results of phases 1-3. -/
def addExecutionSummary (r : WorkflowResults) : WorkflowResults :=
  let allSuccessful := allSuccessfulDocs r
  let allFailed := allFailedDocs r
  { r with
    execution_summary := some
      { total_documents := allSuccessful.length + allFailed.length
        successful_count := allSuccessful.length
        failed_count := allFailed.length
        successful_documents := pySortedSet allSuccessful
        failed_documents := pySortedSet allFailed } }

/-- The result-handling skeleton of `generate_all_docs` (phases 1-3, the
final execution summary and the top-level exception handler; Phase 4
writes no result keys the claims mention).  The root guard is Python's
`if not req_content:` — it aborts both when no requirements result was
collected and when the collected content is the empty string.  Every
failure path below returns the `results` dictionary: the two
`raise ValueError(...)` sites after Phase 1 and any exception elsewhere in
the guarded region are caught by the top-level handler, which tags
`results["error"]` and returns. -/
def generate_all_docs (env : WorkflowEnv) : WorkflowResults :=
  let acc := processPhase1 env
  match reqContentFalsy acc.req_content with
  | true => { acc.results with error := some "Requirements not generated in Phase 1" }
  | false =>
    if env.context_has_requirements then
      let r2 := processPhase2 env acc.results
      let r3 := processPhase3 env r2
      let r4 := addExecutionSummary r3
      match env.late_phase_error with
      | some e => { r4 with error := some e }
      | none => r4
    else
      { acc.results with
        error := some "Requirements not found in context after generation" }

/-- Modelled from the spec: `AsyncParallelExecutor` (bounded worker pool
with a configurable concurrency cap, `src.utils.async_parallel_executor`,
not under `src/`); only the `max_workers` cap passed at construction is
relevant here. -/
structure AsyncParallelExecutor where
  max_workers : Nat
deriving DecidableEq

/-- The executor constructed for Phase 1:
`AsyncParallelExecutor(max_workers=4)` (coordinator.py line 760). -/
def phase1_executor : AsyncParallelExecutor := { max_workers := 4 }

/-- The executor constructed for Phase 2:
`AsyncParallelExecutor(max_workers=8)` (coordinator.py line 949). -/
def phase2_executor : AsyncParallelExecutor := { max_workers := 8 }

/-- No requirements-analyst task produced a result. -/
def rootTaskMissing (env : WorkflowEnv) : Prop :=
  ∀ t ∈ env.phase1_tasks, t.agent_type = AgentType.requirements_analyst →
    env.phase1_results t.task_id = none

/-- Some requirements-analyst task produced a result, and no
requirements-analyst task produced empty content (so the `req_content`
variable ends up truthy: the root guard `if not req_content:` does not
fire). -/
def rootTaskPresent (env : WorkflowEnv) : Prop :=
  (∃ t ∈ env.phase1_tasks, t.agent_type = AgentType.requirements_analyst ∧
    (env.phase1_results t.task_id).isSome) ∧
  (∀ t ∈ env.phase1_tasks, t.agent_type = AgentType.requirements_analyst →
    resultContentEmpty (env.phase1_results t.task_id) = false)

/-- A Phase-1 requirements task. -/
def sampleReqTask : Phase1Task :=
  { task_id := "t_requirements", agent_type := AgentType.requirements_analyst }

/-- A Phase-1 project-charter task. -/
def sampleCharterTask : Phase1Task :=
  { task_id := "t_charter", agent_type := AgentType.project_charter }

/-- A Phase-2 API-documentation task. -/
def sampleApiTask : Phase2Task :=
  { task_id := "t_api", agent_type := AgentType.api_documentation }

/-- A run in which every Phase-1 task, the requirements one included,
produced no result. -/
def rootFailedEnv : WorkflowEnv :=
  { project_id := "project_1"
    phase1_tasks := [sampleReqTask, sampleCharterTask]
    phase1_results := fun _ => none
    context_has_requirements := true
    phase2_tasks := [sampleApiTask]
    phase2_state := fun _ => none
    phase2_file_path := fun _ => none
    read_file := fun _ => Except.ok "content"
    quality_review := Except.ok "docs/quality_review.md"
    claude_cli_doc := Except.ok "docs/CLAUDE.md"
    format_convert_all := Except.ok "docs/conversions"
    format_convert_html := Except.ok "docs/conversions_html"
    late_phase_error := none }

/-- A run in which requirements succeeded, the charter task produced no
result, and the Phase-2 API task failed in the executor. -/
def partialFailureEnv : WorkflowEnv :=
  { rootFailedEnv with
    phase1_results := fun id =>
      if id = "t_requirements"
      then some ("docs/requirements/requirements.md", "requirements text")
      else none
    phase2_state := fun id =>
      if id = "t_api" then some (TaskStatus.failed (some "LLM timeout")) else none }

end Workflow

namespace DocumentCatalog

theorem lookupDef_mem {definitions : Definitions} {x : String} {d : DocumentDefinition}
    (h : lookupDef definitions x = some d) : x ∈ definitions.map Prod.fst := by
  induction definitions with
  | nil => simp [lookupDef] at h
  | cons p rest ih =>
    by_cases hx : p.1 = x
    · simp [hx]
    · simp only [lookupDef, hx, if_false] at h
      simp [ih h]

theorem mem_catalogKeys {definitions : Definitions} {x : String}
    {d : DocumentDefinition} (h : lookupDef definitions x = some d) :
    x ∈ catalogKeys definitions := by
  unfold catalogKeys
  exact List.mem_dedup.mpr (lookupDef_mem h)

theorem mem_fromKeysAux {seen l : List String} {x : String} :
    x ∈ fromKeysAux seen l ↔ x ∈ l ∧ x ∉ seen := by
  induction l generalizing seen with
  | nil => simp [fromKeysAux]
  | cons y ys ih =>
    by_cases hy : y ∈ seen
    · simp only [fromKeysAux, if_pos hy, ih, List.mem_cons]
      constructor
      · rintro ⟨hm, hs⟩; exact ⟨Or.inr hm, hs⟩
      · rintro ⟨hm | hm, hs⟩
        · exact absurd (hm ▸ hy) hs
        · exact ⟨hm, hs⟩
    · simp only [fromKeysAux, if_neg hy, List.mem_cons, ih]
      constructor
      · rintro (hx | ⟨hm, hs⟩)
        · exact ⟨Or.inl hx, hx ▸ hy⟩
        · refine ⟨Or.inr hm, fun hxs => hs ?_⟩
          simp [hxs]
      · rintro ⟨hx | hm, hs⟩
        · exact Or.inl hx
        · by_cases hxy : x = y
          · exact Or.inl hxy
          · exact Or.inr ⟨hm, by simp [hs, hxy]⟩

theorem mem_fromKeys {l : List String} {x : String} :
    x ∈ fromKeys l ↔ x ∈ l := by
  simp [fromKeys, mem_fromKeysAux]

theorem Reaches.snoc {definitions : Definitions} {a b c : String}
    (h : Reaches definitions a b) (e : Edge definitions b c) :
    Reaches definitions a c := by
  induction h with
  | refl x => exact Reaches.step e (Reaches.refl c)
  | step e1 _ ih => exact Reaches.step e1 (ih e)

theorem StackChain.reach_head {definitions : Definitions} {s : List String}
    (hc : StackChain definitions s) :
    ∀ x ∈ s, ∀ hd tl, s = hd :: tl → Reaches definitions x hd := by
  induction hc with
  | nil => intro x hx; exact absurd hx (List.not_mem_nil x)
  | single a =>
    intro x hx hd tl hs
    injection hs with h1 h2
    subst h1
    simp only [List.mem_singleton] at hx
    subst hx
    exact Reaches.refl x
  | cons e hchain ih =>
    rename_i a b rest
    intro x hx hd tl hs
    injection hs with h1 h2
    subst h1
    rcases List.mem_cons.mp hx with rfl | hx
    · exact Reaches.refl x
    · exact (ih x hx b rest rfl).snoc e

theorem TopoValid.append_one {definitions : Definitions} {l : List String}
    {x : String} (ht : TopoValid definitions l) {d : DocumentDefinition}
    (hx : lookupDef definitions x = some d)
    (hdeps : ∀ dep ∈ d.dependencies, dep ∈ l) :
    TopoValid definitions (l ++ [x]) := by
  intro l1 y l2 hsplit
  rcases List.append_eq_append_iff.mp hsplit.symm with ⟨a, ha1, ha2⟩ | ⟨a, ha1, ha2⟩
  · cases a with
    | nil =>
      simp only [List.append_nil] at ha1
      injection ha2 with h1 h2
      subst h1
      subst ha1
      exact ⟨d, hx, hdeps⟩
    | cons z a2 =>
      simp only [List.cons_append] at ha2
      injection ha2 with h1 h2
      subst h1
      subst ha1
      exact ht l1 y a2 rfl
  · cases a with
    | nil =>
      simp only [List.append_nil] at ha1
      injection ha2 with h1 h2
      subst h1
      subst ha1
      exact ⟨d, hx, fun dep hdep => hdeps dep hdep⟩
    | cons z a2 =>
      simp only [List.cons_append] at ha2
      injection ha2 with h1 h2
      obtain ⟨-, h3⟩ := List.append_eq_nil.mp h2.symm
      exact absurd h3 (List.cons_ne_nil y l2)

theorem visitPost_refl {definitions : Definitions} {st : ResolveState}
    (hinv : ResolveInv definitions st) (ids : List String)
    (hids : ∀ x ∈ ids, x ∈ st.visited) : VisitPost definitions st st ids :=
  ⟨hinv, rfl, fun _ hx => hx, hids, ⟨[], by simp⟩⟩

theorem ResolveInv.push {definitions : Definitions} {st : ResolveState}
    {d : String} {defn : DocumentDefinition} (hinv : ResolveInv definitions st)
    (hvtd : d ∉ st.visited) (hvg : d ∉ st.visiting)
    (hlk : lookupDef definitions d = some defn) :
    ResolveInv definitions { st with visiting := d :: st.visiting } := by
  refine ⟨?_, ?_, ?_, hinv.visited_iff_order, hinv.nodup_order, hinv.topo⟩
  · exact List.nodup_cons.mpr ⟨hvg, hinv.nodup_visiting⟩
  · intro x hx
    rcases List.mem_cons.mp hx with rfl | hx
    · simp [hlk]
    · exact hinv.visiting_defined x hx
  · intro x hx
    rcases List.mem_cons.mp hx with rfl | hx
    · exact hvtd
    · exact hinv.visiting_not_visited x hx

theorem visitDeps_ok {definitions : Definitions}
    {v : String → ResolveState → Option (Except ResolveError ResolveState)}
    (hv : ∀ d st st1, ResolveInv definitions st → v d st = some (Except.ok st1) →
      VisitPost definitions st st1 [d]) :
    ∀ ids st st1, ResolveInv definitions st →
      visitDeps v ids st = some (Except.ok st1) →
      VisitPost definitions st st1 ids := by
  intro ids
  induction ids with
  | nil =>
    intro st st1 hinv h
    simp only [visitDeps] at h
    injection h with h
    injection h with h
    subst h
    exact visitPost_refl hinv [] (by simp)
  | cons d rest ih =>
    intro st st1 hinv h
    simp only [visitDeps] at h
    cases hv1 : v d st with
    | none => rw [hv1] at h; exact absurd h (by simp)
    | some r =>
      cases r with
      | error e => rw [hv1] at h; exact absurd h (by simp)
      | ok stm =>
        rw [hv1] at h
        have p1 := hv d st stm hinv hv1
        have p2 := ih stm st1 p1.1 h
        obtain ⟨t1, ht1⟩ := p1.2.2.2.2
        obtain ⟨t2, ht2⟩ := p2.2.2.2.2
        refine ⟨p2.1, p2.2.1.trans p1.2.1, fun x hx => p2.2.2.1 x (p1.2.2.1 x hx),
          ?_, ⟨t1 ++ t2, by rw [ht2, ht1, List.append_assoc]⟩⟩
        intro x hx
        rcases List.mem_cons.mp hx with rfl | hx
        · exact p2.2.2.1 x (p1.2.2.2.1 x (by simp))
        · exact p2.2.2.2.1 x hx

theorem visit_ok {definitions : Definitions} :
    ∀ fuel d st st1, ResolveInv definitions st →
      visit definitions fuel d st = some (Except.ok st1) →
      VisitPost definitions st st1 [d] := by
  intro fuel
  induction fuel with
  | zero => intro d st st1 _ h; exact absurd h (by simp [visit])
  | succ fuel ih =>
    intro d st st1 hinv h
    simp only [visit] at h
    by_cases hvtd : d ∈ st.visited
    · rw [if_pos hvtd] at h
      injection h with h
      injection h with h
      subst h
      exact visitPost_refl hinv [d] (by simpa using hvtd)
    · rw [if_neg hvtd] at h
      by_cases hvg : d ∈ st.visiting
      · rw [if_pos hvg] at h
        exact absurd h (by simp)
      · rw [if_neg hvg] at h
        cases hlk : lookupDef definitions d with
        | none => simp only [hlk] at h; exact absurd h (by simp)
        | some defn =>
          simp only [hlk] at h
          cases hfold : visitDeps (visit definitions fuel) defn.dependencies
              { st with visiting := d :: st.visiting } with
          | none => simp only [hfold] at h; exact absurd h (by simp)
          | some r =>
            cases r with
            | error e => simp only [hfold] at h; exact absurd h (by simp)
            | ok st2 =>
              simp only [hfold, Option.some.injEq, Except.ok.injEq] at h
              have hinv0 := hinv.push hvtd hvg hlk
              have p := visitDeps_ok ih defn.dependencies _ st2 hinv0 hfold
              have hvg2 : st2.visiting = d :: st.visiting := p.2.1
              have hdmem : d ∈ st2.visiting := by rw [hvg2]; simp
              have hdnv : d ∉ st2.visited := p.1.visiting_not_visited d hdmem
              have hdno : d ∉ st2.order := fun hc =>
                hdnv ((p.1.visited_iff_order d).mpr hc)
              have hdeps_order : ∀ dep ∈ defn.dependencies, dep ∈ st2.order :=
                fun dep hdep => (p.1.visited_iff_order dep).mp (p.2.2.2.1 dep hdep)
              obtain ⟨t, ht⟩ := p.2.2.2.2
              subst h
              refine ⟨⟨?_, ?_, ?_, ?_, ?_, ?_⟩, ?_, ?_, ?_, ?_⟩
              · simpa [hvg2, List.erase_cons_head] using hinv.nodup_visiting
              · intro x hx
                simp only [hvg2, List.erase_cons_head] at hx
                exact hinv.visiting_defined x hx
              · intro x hx
                simp only [hvg2, List.erase_cons_head] at hx
                simp only [List.mem_cons, not_or]
                exact ⟨fun hc => hvg (hc ▸ hx),
                  p.1.visiting_not_visited x (by rw [hvg2]; simp [hx])⟩
              · intro x
                simp only [List.mem_cons, List.mem_append, List.mem_singleton,
                  p.1.visited_iff_order x]
                tauto
              · refine p.1.nodup_order.append (List.nodup_singleton d) ?_
                intro a ha hb
                simp only [List.mem_singleton] at hb
                exact hdno (hb ▸ ha)
              · exact p.1.topo.append_one hlk hdeps_order
              · simp [hvg2, List.erase_cons_head]
              · intro x hx
                simp only [List.mem_cons]
                exact Or.inr (p.2.2.1 x hx)
              · intro x hx
                simp only [List.mem_singleton] at hx
                simp [hx]
              · exact ⟨t ++ [d], by simp [ht]⟩

theorem visitDeps_err_unknown {definitions : Definitions}
    {v : String → ResolveState → Option (Except ResolveError ResolveState)}
    (hv : ∀ d st u, v d st = some (Except.error (ResolveError.unknownDocumentError u)) →
      lookupDef definitions u = none ∧ Reaches definitions d u) :
    ∀ ids st u,
      visitDeps v ids st = some (Except.error (ResolveError.unknownDocumentError u)) →
      lookupDef definitions u = none ∧ ∃ d ∈ ids, Reaches definitions d u := by
  intro ids
  induction ids with
  | nil => intro st u h; exact absurd h (by simp [visitDeps])
  | cons d rest ih =>
    intro st u h
    simp only [visitDeps] at h
    cases hv1 : v d st with
    | none => rw [hv1] at h; exact absurd h (by simp)
    | some r =>
      cases r with
      | error e =>
        simp only [hv1, Option.some.injEq, Except.error.injEq] at h
        subst h
        obtain ⟨hnone, hr⟩ := hv d st u hv1
        exact ⟨hnone, d, by simp, hr⟩
      | ok stm =>
        simp only [hv1] at h
        obtain ⟨hnone, dd, hdd, hr⟩ := ih stm u h
        exact ⟨hnone, dd, List.mem_cons_of_mem d hdd, hr⟩

theorem visit_err_unknown {definitions : Definitions} :
    ∀ fuel d st u,
      visit definitions fuel d st =
        some (Except.error (ResolveError.unknownDocumentError u)) →
      lookupDef definitions u = none ∧ Reaches definitions d u := by
  intro fuel
  induction fuel with
  | zero => intro d st u h; exact absurd h (by simp [visit])
  | succ fuel ih =>
    intro d st u h
    simp only [visit] at h
    by_cases hvtd : d ∈ st.visited
    · rw [if_pos hvtd] at h; exact absurd h (by simp)
    · rw [if_neg hvtd] at h
      by_cases hvg : d ∈ st.visiting
      · rw [if_pos hvg] at h; exact absurd h (by simp)
      · rw [if_neg hvg] at h
        cases hlk : lookupDef definitions d with
        | none =>
          simp only [hlk, Option.some.injEq, Except.error.injEq,
            ResolveError.unknownDocumentError.injEq] at h
          subst h
          exact ⟨hlk, Reaches.refl d⟩
        | some defn =>
          simp only [hlk] at h
          cases hfold : visitDeps (visit definitions fuel) defn.dependencies
              { st with visiting := d :: st.visiting } with
          | none => simp only [hfold] at h; exact absurd h (by simp)
          | some r =>
            cases r with
            | ok st2 => simp only [hfold] at h; exact absurd h (by simp)
            | error e =>
              simp only [hfold, Option.some.injEq, Except.error.injEq] at h
              subst h
              obtain ⟨hnone, dd, hdd, hr⟩ :=
                visitDeps_err_unknown ih defn.dependencies _ u hfold
              exact ⟨hnone, Reaches.step ⟨defn, hlk, hdd⟩ hr⟩

theorem visitDeps_err_cycle {definitions : Definitions}
    {v : String → ResolveState → Option (Except ResolveError ResolveState)}
    (hframe : ∀ d st st1, ResolveInv definitions st →
      v d st = some (Except.ok st1) →
      ResolveInv definitions st1 ∧ st1.visiting = st.visiting)
    (hv : ∀ d st c, ResolveInv definitions st → StackChain definitions st.visiting →
      HeadEdge definitions st.visiting d →
      v d st = some (Except.error (ResolveError.cycleError c)) →
      OnCycle definitions c) :
    ∀ ids st c, ResolveInv definitions st → StackChain definitions st.visiting →
      (∀ e ∈ ids, HeadEdge definitions st.visiting e) →
      visitDeps v ids st = some (Except.error (ResolveError.cycleError c)) →
      OnCycle definitions c := by
  intro ids
  induction ids with
  | nil => intro st c _ _ _ h; exact absurd h (by simp [visitDeps])
  | cons d rest ih =>
    intro st c hinv hchain hhe h
    simp only [visitDeps] at h
    cases hv1 : v d st with
    | none => rw [hv1] at h; exact absurd h (by simp)
    | some r =>
      cases r with
      | error e =>
        simp only [hv1, Option.some.injEq, Except.error.injEq] at h
        subst h
        exact hv d st c hinv hchain (hhe d (by simp)) hv1
      | ok stm =>
        simp only [hv1] at h
        obtain ⟨hinv1, hfr⟩ := hframe d st stm hinv hv1
        refine ih stm c hinv1 ?_ ?_ h
        · rw [hfr]; exact hchain
        · intro e he hd tl hseq
          exact hhe e (List.mem_cons_of_mem d he) hd tl (by rw [← hfr]; exact hseq)

theorem visit_err_cycle {definitions : Definitions} :
    ∀ fuel d st c, ResolveInv definitions st →
      StackChain definitions st.visiting → HeadEdge definitions st.visiting d →
      visit definitions fuel d st = some (Except.error (ResolveError.cycleError c)) →
      OnCycle definitions c := by
  intro fuel
  induction fuel with
  | zero => intro d st c _ _ _ h; exact absurd h (by simp [visit])
  | succ fuel ih =>
    intro d st c hinv hchain hhe h
    simp only [visit] at h
    by_cases hvtd : d ∈ st.visited
    · rw [if_pos hvtd] at h; exact absurd h (by simp)
    · rw [if_neg hvtd] at h
      by_cases hvg : d ∈ st.visiting
      · rw [if_pos hvg] at h
        have hdc : d = c := by
          simpa [ResolveError.cycleError.injEq] using h
        subst hdc
        obtain ⟨hd, tl, hs⟩ : ∃ hd tl, st.visiting = hd :: tl := by
          cases hcase : st.visiting with
          | nil => rw [hcase] at hvg; exact absurd hvg (List.not_mem_nil d)
          | cons a b => exact ⟨a, b, rfl⟩
        have hedge : Edge definitions hd d := hhe hd tl hs
        have hreach : Reaches definitions d hd :=
          hchain.reach_head d hvg hd tl hs
        cases hreach with
        | refl => exact ⟨d, hedge, Reaches.refl d⟩
        | step e1 hr => exact ⟨_, e1, hr.snoc hedge⟩
      · rw [if_neg hvg] at h
        cases hlk : lookupDef definitions d with
        | none => simp only [hlk] at h; exact absurd h (by simp)
        | some defn =>
          simp only [hlk] at h
          cases hfold : visitDeps (visit definitions fuel) defn.dependencies
              { st with visiting := d :: st.visiting } with
          | none => simp only [hfold] at h; exact absurd h (by simp)
          | some r =>
            cases r with
            | ok st2 => simp only [hfold] at h; exact absurd h (by simp)
            | error e =>
              simp only [hfold, Option.some.injEq, Except.error.injEq] at h
              subst h
              have hinv0 := hinv.push hvtd hvg hlk
              have hchain0 : StackChain definitions (d :: st.visiting) := by
                cases hcase : st.visiting with
                | nil => exact StackChain.single d
                | cons a b =>
                  refine StackChain.cons (hhe a b hcase) ?_
                  rw [← hcase]; exact hchain
              refine visitDeps_err_cycle
                (fun d1 st3 st4 hi hv1 =>
                  ⟨(visit_ok fuel d1 st3 st4 hi hv1).1,
                   (visit_ok fuel d1 st3 st4 hi hv1).2.1⟩)
                ih defn.dependencies _ c hinv0 hchain0 ?_ hfold
              intro e1 he1 hd tl hseq
              injection hseq with h1 h2
              subst h1
              exact ⟨defn, hlk, he1⟩

theorem freeCount_push {definitions : Definitions} {visiting : List String}
    {d : String} {defn : DocumentDefinition}
    (hlk : lookupDef definitions d = some defn) (hd : d ∉ visiting) :
    freeCount definitions (d :: visiting) + 1 = freeCount definitions visiting := by
  unfold freeCount
  have hmem : d ∈ (catalogKeys definitions).toFinset \ visiting.toFinset :=
    Finset.mem_sdiff.mpr ⟨List.mem_toFinset.mpr (mem_catalogKeys hlk),
      by simpa using hd⟩
  rw [List.toFinset_cons, Finset.sdiff_insert, Finset.card_erase_of_mem hmem]
  have hpos : 0 < ((catalogKeys definitions).toFinset \ visiting.toFinset).card :=
    Finset.card_pos.mpr ⟨d, hmem⟩
  omega

theorem visitDeps_isSome {definitions : Definitions}
    {v : String → ResolveState → Option (Except ResolveError ResolveState)}
    (V : List String)
    (hframe : ∀ d st st1, ResolveInv definitions st →
      v d st = some (Except.ok st1) →
      ResolveInv definitions st1 ∧ st1.visiting = st.visiting)
    (hsome : ∀ d st, ResolveInv definitions st → st.visiting = V → (v d st).isSome) :
    ∀ ids st, ResolveInv definitions st → st.visiting = V →
      (visitDeps v ids st).isSome := by
  intro ids
  induction ids with
  | nil => intro st _ _; simp [visitDeps]
  | cons d rest ih =>
    intro st hinv hV
    simp only [visitDeps]
    cases hv1 : v d st with
    | none =>
      have := hsome d st hinv hV
      rw [hv1] at this
      exact absurd this (by simp)
    | some r =>
      cases r with
      | error e => simp
      | ok stm =>
        obtain ⟨hinv1, hfr⟩ := hframe d st stm hinv hv1
        exact ih stm hinv1 (hfr.trans hV)

theorem visit_isSome {definitions : Definitions} :
    ∀ fuel d st, ResolveInv definitions st →
      freeCount definitions st.visiting < fuel →
      (visit definitions fuel d st).isSome := by
  intro fuel
  induction fuel with
  | zero => intro d st _ h; exact absurd h (by omega)
  | succ fuel ih =>
    intro d st hinv hfuel
    simp only [visit]
    by_cases hvtd : d ∈ st.visited
    · simp [hvtd]
    · rw [if_neg hvtd]
      by_cases hvg : d ∈ st.visiting
      · simp [hvg]
      · rw [if_neg hvg]
        cases hlk : lookupDef definitions d with
        | none => simp
        | some defn =>
          have hpush := freeCount_push hlk hvg
          have hfuel1 : freeCount definitions (d :: st.visiting) < fuel := by omega
          have hfold := visitDeps_isSome (d :: st.visiting)
            (fun d1 st3 st4 hi hv1 =>
              ⟨(visit_ok fuel d1 st3 st4 hi hv1).1,
               (visit_ok fuel d1 st3 st4 hi hv1).2.1⟩)
            (fun d1 st3 hi hV => ih d1 st3 hi (by rw [hV]; exact hfuel1))
            defn.dependencies { st with visiting := d :: st.visiting }
            (hinv.push hvtd hvg hlk) rfl
          cases hh : visitDeps (visit definitions fuel) defn.dependencies
              { st with visiting := d :: st.visiting } with
          | none => rw [hh] at hfold; exact absurd hfold (by simp)
          | some r =>
            cases r with
            | error e => simp [hh]
            | ok st2 => simp [hh]

theorem initState_inv (definitions : Definitions) : ResolveInv definitions initState := by
  refine ⟨List.nodup_nil, ?_, ?_, ?_, List.nodup_nil, ?_⟩
  · intro x hx; exact absurd hx (List.not_mem_nil x)
  · intro x hx; exact absurd hx (List.not_mem_nil x)
  · intro x; simp [initState]
  · intro l1 x l2 hsplit; exact absurd hsplit.symm (by simp [initState])

theorem resolve_total (definitions : Definitions) (selected_ids : List String) :
    (visitDeps (visit definitions (resolveFuel definitions)) (fromKeys selected_ids)
      initState).isSome := by
  refine visitDeps_isSome ([] : List String)
    (fun d1 st3 st4 hi hv1 =>
      ⟨(visit_ok (resolveFuel definitions) d1 st3 st4 hi hv1).1,
       (visit_ok (resolveFuel definitions) d1 st3 st4 hi hv1).2.1⟩)
    (fun d1 st3 hi hV => visit_isSome (resolveFuel definitions) d1 st3 hi ?_)
    (fromKeys selected_ids) initState (initState_inv definitions) rfl
  rw [hV]
  have h1 : freeCount definitions [] ≤ (catalogKeys definitions).length := by
    unfold freeCount
    calc ((catalogKeys definitions).toFinset \ (List.toFinset [])).card
        ≤ (catalogKeys definitions).toFinset.card :=
          Finset.card_le_card (Finset.sdiff_subset)
      _ ≤ (catalogKeys definitions).length := (catalogKeys definitions).toFinset_card_le
  unfold resolveFuel
  omega

theorem topo_edge_lt {definitions : Definitions} {l : List String}
    (ht : TopoValid definitions l) (hnd : l.Nodup) {x y : String}
    (hx : x ∈ l) (he : Edge definitions x y) :
    y ∈ l ∧ List.indexOf y l < List.indexOf x l := by
  obtain ⟨l1, l2, rfl⟩ := List.append_of_mem hx
  obtain ⟨d, hd, hdeps⟩ := ht l1 x l2 rfl
  obtain ⟨d2, hd2, hyd⟩ := he
  rw [hd] at hd2
  have hdd : d = d2 := Option.some.inj hd2
  have hyl1 : y ∈ l1 := hdeps y (hdd ▸ hyd)
  have hxnl1 : x ∉ l1 := by
    rw [List.nodup_append] at hnd
    exact fun hc => hnd.2.2 hc (by simp)
  constructor
  · exact List.mem_append.mpr (Or.inl hyl1)
  · rw [List.indexOf_append_of_mem hyl1, List.indexOf_append_of_not_mem hxnl1,
      List.indexOf_cons_self]
    have := List.indexOf_lt_length.mpr hyl1
    omega

theorem topo_reaches_le {definitions : Definitions} {l : List String}
    (ht : TopoValid definitions l) (hnd : l.Nodup) {y z : String}
    (hr : Reaches definitions y z) (hy : y ∈ l) :
    z ∈ l ∧ List.indexOf z l ≤ List.indexOf y l := by
  induction hr with
  | refl x => exact ⟨hy, le_refl _⟩
  | step e hr2 ih =>
    obtain ⟨hm, hlt⟩ := topo_edge_lt ht hnd hy e
    obtain ⟨hz, hle⟩ := ih hm
    exact ⟨hz, by omega⟩

theorem topo_no_cycle {definitions : Definitions} {l : List String}
    (ht : TopoValid definitions l) (hnd : l.Nodup) {x : String} (hx : x ∈ l) :
    ¬ OnCycle definitions x := by
  rintro ⟨y, he, hr⟩
  obtain ⟨hym, hlt⟩ := topo_edge_lt ht hnd hx he
  obtain ⟨hxm, hle⟩ := topo_reaches_le ht hnd hr hym
  omega

theorem topo_mem_defined {definitions : Definitions} {l : List String}
    (ht : TopoValid definitions l) {x : String} (hx : x ∈ l) :
    (lookupDef definitions x).isSome := by
  obtain ⟨l1, l2, rfl⟩ := List.append_of_mem hx
  obtain ⟨d, hd, -⟩ := ht l1 x l2 rfl
  simp [hd]

theorem lookupDef_mem_pair {definitions : Definitions} {x : String}
    {d : DocumentDefinition} (h : lookupDef definitions x = some d) :
    (x, d) ∈ definitions := by
  induction definitions with
  | nil => simp [lookupDef] at h
  | cons p rest ih =>
    obtain ⟨k, v⟩ := p
    by_cases hx : k = x
    · subst hx
      simp only [lookupDef, if_pos] at h
      have hd2 : v = d := Option.some.inj h
      subst hd2
      exact List.mem_cons_self (k, v) rest
    · simp only [lookupDef, hx, if_false] at h
      exact List.mem_cons_of_mem (k, v) (ih h)

theorem reaches_defined {definitions : Definitions}
    (hclosed : ∀ p ∈ definitions, ∀ dep ∈ p.2.dependencies,
      (lookupDef definitions dep).isSome)
    {s x : String} (hs : (lookupDef definitions s).isSome)
    (hr : Reaches definitions s x) : (lookupDef definitions x).isSome := by
  induction hr with
  | refl => exact hs
  | step e hr2 ih =>
    obtain ⟨d, hd, hy⟩ := e
    exact ih (hclosed _ (lookupDef_mem_pair hd) _ hy)

theorem cert_edge_lt {definitions : Definitions} {ranks : List (String × Nat)}
    (hc : acyclicCertB definitions ranks = true) {x y : String}
    (he : Edge definitions x y) (hy : (lookupDef definitions y).isSome) :
    rankOf ranks y < rankOf ranks x := by
  obtain ⟨d, hd, hyd⟩ := he
  have h1 := List.all_eq_true.mp hc (x, d) (lookupDef_mem_pair hd)
  have h2 := List.all_eq_true.mp h1 y hyd
  rw [Bool.or_eq_true, Bool.not_eq_true', decide_eq_true_eq] at h2
  rcases h2 with h2 | h2
  · rw [h2] at hy; exact absurd hy (by simp)
  · exact h2

theorem reaches_defined_of_target {definitions : Definitions} {m q : String}
    (hr : Reaches definitions m q) (hq : (lookupDef definitions q).isSome) :
    (lookupDef definitions m).isSome := by
  cases hr with
  | refl => exact hq
  | step e hr2 => obtain ⟨d, hd, -⟩ := e; simp [hd]

theorem cert_reaches_le {definitions : Definitions} {ranks : List (String × Nat)}
    (hc : acyclicCertB definitions ranks = true) {m q : String}
    (hr : Reaches definitions m q) :
    (lookupDef definitions q).isSome → rankOf ranks q ≤ rankOf ranks m := by
  induction hr with
  | refl => intro _; exact le_refl _
  | step e hr2 ih =>
    intro hq
    have hm2 := reaches_defined_of_target hr2 hq
    have h1 := cert_edge_lt hc e hm2
    have h2 := ih hq
    omega

theorem acyclic_of_cert {definitions : Definitions} {ranks : List (String × Nat)}
    (hc : acyclicCertB definitions ranks = true) :
    ∀ x, ¬ OnCycle definitions x := by
  rintro x ⟨y, he, hr⟩
  have hx : (lookupDef definitions x).isSome := by
    obtain ⟨d, hd, -⟩ := he
    simp [hd]
  have hy : (lookupDef definitions y).isSome := reaches_defined_of_target hr hx
  have h1 := cert_edge_lt hc he hy
  have h2 := cert_reaches_le hc hr hx
  omega

theorem resolve_dependencies_cases (definitions : Definitions)
    (selected_ids : List String) :
    (∃ st, resolve_dependencies definitions selected_ids = Except.ok st.order ∧
       VisitPost definitions initState st (fromKeys selected_ids)) ∨
    (∃ e, resolve_dependencies definitions selected_ids = Except.error e ∧
       visitDeps (visit definitions (resolveFuel definitions)) (fromKeys selected_ids)
         initState = some (Except.error e)) := by
  have htot := resolve_total definitions selected_ids
  cases hfold : visitDeps (visit definitions (resolveFuel definitions))
      (fromKeys selected_ids) initState with
  | none => rw [hfold] at htot; exact absurd htot (by simp)
  | some r =>
    cases r with
    | ok st =>
      left
      refine ⟨st, ?_, visitDeps_ok (visit_ok (resolveFuel definitions)) _ _ _
        (initState_inv definitions) hfold⟩
      simp [resolve_dependencies, hfold, Except.map]
    | error e =>
      right
      exact ⟨e, by simp [resolve_dependencies, hfold, Except.map], rfl⟩

theorem visitDeps_congr
    {v1 v2 : String → ResolveState → Option (Except ResolveError ResolveState)}
    (h : ∀ d st, v1 d st = v2 d st) :
    ∀ ids st, visitDeps v1 ids st = visitDeps v2 ids st := by
  intro ids
  induction ids with
  | nil => intro st; rfl
  | cons x xs ih =>
    intro st
    simp only [visitDeps, h x st]
    cases v2 x st with
    | none => rfl
    | some r =>
      cases r with
      | error e => rfl
      | ok stm => exact ih stm

theorem lookup_depView {A B : Definitions} (h : depView A = depView B) :
    ∀ x, (lookupDef A x).map DocumentDefinition.dependencies =
      (lookupDef B x).map DocumentDefinition.dependencies := by
  induction A generalizing B with
  | nil =>
    have hB : B = [] := by
      cases B with
      | nil => rfl
      | cons b bs => simp [depView] at h
    subst hB
    intro x
    rfl
  | cons a as ih =>
    cases B with
    | nil => simp [depView] at h
    | cons b bs =>
      obtain ⟨ka, va⟩ := a
      obtain ⟨kb, vb⟩ := b
      simp only [depView, List.map_cons, List.cons.injEq, Prod.mk.injEq] at h
      obtain ⟨⟨hk, hdeps⟩, htail⟩ := h
      subst hk
      intro x
      by_cases hx : ka = x
      · simp [lookupDef, hx, hdeps]
      · simp only [lookupDef, hx, if_false]
        exact ih htail x

theorem visit_depView_congr {A B : Definitions} (h : depView A = depView B) :
    ∀ fuel d st, visit A fuel d st = visit B fuel d st := by
  intro fuel
  induction fuel with
  | zero => intro d st; rfl
  | succ fuel ih =>
    intro d st
    simp only [visit]
    by_cases h1 : d ∈ st.visited
    · simp [h1]
    · by_cases h2 : d ∈ st.visiting
      · simp [h1, h2]
      · simp only [if_neg h1, if_neg h2]
        have hl := lookup_depView h d
        cases hA : lookupDef A d with
        | none =>
          cases hB : lookupDef B d with
          | none => rfl
          | some vb => rw [hA, hB] at hl; exact absurd hl (by simp)
        | some va =>
          cases hB : lookupDef B d with
          | none => rw [hA, hB] at hl; exact absurd hl (by simp)
          | some vb =>
            rw [hA, hB] at hl
            simp only [Option.map_some', Option.some.injEq] at hl
            simp only [hA, hB]
            rw [hl, visitDeps_congr (fun d1 st1 => ih d1 st1)]

theorem catalogKeys_depView {A B : Definitions} (h : depView A = depView B) :
    catalogKeys A = catalogKeys B := by
  unfold catalogKeys
  have h2 := congrArg (List.map Prod.fst) h
  simp only [depView, List.map_map] at h2
  have h3 : A.map Prod.fst = B.map Prod.fst := by
    convert h2 using 2
  rw [h3]

theorem resolve_err_cycle_oncycle {definitions : Definitions}
    {selected_ids : List String} {c : String}
    (hfold : visitDeps (visit definitions (resolveFuel definitions))
      (fromKeys selected_ids) initState =
      some (Except.error (ResolveError.cycleError c))) :
    OnCycle definitions c := by
  refine visitDeps_err_cycle ?_ (visit_err_cycle (resolveFuel definitions)) _ _ c
    (initState_inv definitions) StackChain.nil ?_ hfold
  · exact fun d1 st3 st4 hi hv1 =>
      ⟨(visit_ok (resolveFuel definitions) d1 st3 st4 hi hv1).1,
       (visit_ok (resolveFuel definitions) d1 st3 st4 hi hv1).2.1⟩
  · intro e1 he1 hd tl hseq
    exact absurd hseq (by simp [initState])

theorem resolve_err_unknown_reaches {definitions : Definitions}
    {selected_ids : List String} {u : String}
    (hfold : visitDeps (visit definitions (resolveFuel definitions))
      (fromKeys selected_ids) initState =
      some (Except.error (ResolveError.unknownDocumentError u))) :
    lookupDef definitions u = none ∧
      ∃ s ∈ selected_ids, Reaches definitions s u := by
  obtain ⟨hnone, d, hd, hr⟩ :=
    visitDeps_err_unknown (visit_err_unknown (resolveFuel definitions)) _ _ u hfold
  exact ⟨hnone, d, mem_fromKeys.mp hd, hr⟩

/-- Claim C1: for every list of document ids over a valid catalog — every
selected id and every declared dependency of a catalog entry defined, and
the dependency graph acyclic — `resolve_dependencies` returns an ordering
in which every document id appears after all of its declared dependencies
(`TopoValid`: each element is defined and its dependencies occur strictly
earlier in the list). -/
theorem resolve_dependencies_topological (definitions : Definitions)
    (selected_ids : List String)
    (hclosed : ∀ p ∈ definitions, ∀ dep ∈ p.2.dependencies,
      (lookupDef definitions dep).isSome)
    (hsel : ∀ s ∈ selected_ids, (lookupDef definitions s).isSome)
    (hacyc : ∀ x, ¬ OnCycle definitions x) :
    ∃ l, resolve_dependencies definitions selected_ids = Except.ok l ∧
      TopoValid definitions l := by
  rcases resolve_dependencies_cases definitions selected_ids with
    ⟨st, hres, hpost⟩ | ⟨e, hres, hfold⟩
  · exact ⟨st.order, hres, hpost.1.topo⟩
  · exfalso
    cases e with
    | unknownDocumentError u =>
      obtain ⟨hnone, s, hs, hr⟩ := resolve_err_unknown_reaches hfold
      have := reaches_defined hclosed (hsel s hs) hr
      rw [hnone] at this
      exact absurd this (by simp)
    | cycleError c =>
      exact hacyc c (resolve_err_cycle_oncycle hfold)

/-- Witness for C1 on a concrete acyclic catalog with a shared dependency. -/
theorem resolve_dependencies_topological_witness :
    ∃ l, resolve_dependencies diamondCatalog ["stories", "charter"] = Except.ok l ∧
      TopoValid diamondCatalog l :=
  resolve_dependencies_topological diamondCatalog ["stories", "charter"]
    (by decide) (by decide) (@acyclic_of_cert diamondCatalog diamondRanks (by decide))

/-- Counterexample for C2: in `cycleAfterUnknownCatalog` the cycle
`beta → beta` is reachable from the selected id `alpha`, yet
`resolve_dependencies` raises the unknown-document error for `missing`
(encountered first), not a cycle error; so the claim's "always raises
CycleError" fails as stated. -/
theorem resolve_dependencies_cycle_counterexample :
    Reaches cycleAfterUnknownCatalog "alpha" "beta" ∧
    OnCycle cycleAfterUnknownCatalog "beta" ∧
    resolve_dependencies cycleAfterUnknownCatalog ["alpha"] =
      Except.error (ResolveError.unknownDocumentError "missing") ∧
    isCycleError (resolve_dependencies cycleAfterUnknownCatalog ["alpha"]) = false := by
  refine ⟨?_, ?_, by rfl, by rfl⟩
  · exact Reaches.step ⟨mkDefinition "alpha" ["missing", "beta"], rfl, by decide⟩
      (Reaches.refl "beta")
  · exact ⟨"beta", ⟨mkDefinition "beta" ["beta"], rfl, by decide⟩, Reaches.refl "beta"⟩

/-- Claim C2 (amended): when additionally every selected id and every
declared dependency is defined in the catalog — so the traversal cannot hit
the unknown-document error first — an input whose dependency graph contains
a cycle reachable from a selected id always makes `resolve_dependencies`
raise the cycle error naming a document id that lies on a cycle, and never
return an ordering. -/
theorem resolve_dependencies_cycle_detection (definitions : Definitions)
    (selected_ids : List String)
    (hclosed : ∀ p ∈ definitions, ∀ dep ∈ p.2.dependencies,
      (lookupDef definitions dep).isSome)
    (hsel : ∀ s ∈ selected_ids, (lookupDef definitions s).isSome)
    (hcyc : ∃ s ∈ selected_ids, ∃ c, Reaches definitions s c ∧
      OnCycle definitions c) :
    ∃ c1, resolve_dependencies definitions selected_ids =
        Except.error (ResolveError.cycleError c1) ∧ OnCycle definitions c1 := by
  rcases resolve_dependencies_cases definitions selected_ids with
    ⟨st, hres, hpost⟩ | ⟨e, hres, hfold⟩
  · exfalso
    obtain ⟨s, hs, c, hr, hoc⟩ := hcyc
    have hsmem : s ∈ st.order := (hpost.1.visited_iff_order s).mp
      (hpost.2.2.2.1 s (mem_fromKeys.mpr hs))
    have hcmem := (topo_reaches_le hpost.1.topo hpost.1.nodup_order hr hsmem).1
    exact topo_no_cycle hpost.1.topo hpost.1.nodup_order hcmem hoc
  · cases e with
    | unknownDocumentError u =>
      exfalso
      obtain ⟨hnone, s, hs, hr⟩ := resolve_err_unknown_reaches hfold
      have := reaches_defined hclosed (hsel s hs) hr
      rw [hnone] at this
      exact absurd this (by simp)
    | cycleError c =>
      exact ⟨c, hres, resolve_err_cycle_oncycle hfold⟩

/-- Witness for the amended C2 on a fully defined two-document cycle. -/
theorem resolve_dependencies_cycle_detection_witness :
    ∃ c1, resolve_dependencies twoCycleCatalog ["alpha"] =
        Except.error (ResolveError.cycleError c1) ∧ OnCycle twoCycleCatalog c1 :=
  resolve_dependencies_cycle_detection twoCycleCatalog ["alpha"]
    (by decide) (by decide)
    ⟨"alpha", by decide,
     "alpha", Reaches.refl "alpha",
     ⟨"beta", ⟨mkDefinition "alpha" ["beta"], rfl, by decide⟩,
      Reaches.step ⟨mkDefinition "beta" ["alpha"], rfl, by decide⟩
        (Reaches.refl "alpha")⟩⟩

/-- Counterexample for C7: in `unknownAfterCycleCatalog` the undefined id
`missing` is transitively referenced from the selected id `alpha`, yet
`resolve_dependencies` raises the cycle error for `alpha` (the cycle is
entered before the unknown dependency), not the unknown-document error; so
the claim fails as stated. -/
theorem resolve_dependencies_unknown_counterexample :
    Reaches unknownAfterCycleCatalog "alpha" "missing" ∧
    lookupDef unknownAfterCycleCatalog "missing" = none ∧
    resolve_dependencies unknownAfterCycleCatalog ["alpha"] =
      Except.error (ResolveError.cycleError "alpha") ∧
    isUnknownError (resolve_dependencies unknownAfterCycleCatalog ["alpha"]) = false := by
  refine ⟨?_, by rfl, by rfl, by rfl⟩
  exact Reaches.step ⟨mkDefinition "alpha" ["beta", "missing"], rfl, by decide⟩
    (Reaches.refl "missing")

/-- Claim C7 (amended): when additionally the catalog's dependency graph is
acyclic — so the traversal cannot raise the cycle error first — an input
that references (directly or transitively) a document id with no definition
always makes `resolve_dependencies` fail with the unknown-document error,
identifying an undefined id that is reachable from a selected id, rather
than return an ordering. -/
theorem resolve_dependencies_unknown_detection (definitions : Definitions)
    (selected_ids : List String)
    (hacyc : ∀ x, ¬ OnCycle definitions x)
    (hunk : ∃ s ∈ selected_ids, ∃ u, Reaches definitions s u ∧
      lookupDef definitions u = none) :
    ∃ u1, resolve_dependencies definitions selected_ids =
        Except.error (ResolveError.unknownDocumentError u1) ∧
      lookupDef definitions u1 = none ∧
      ∃ s1 ∈ selected_ids, Reaches definitions s1 u1 := by
  rcases resolve_dependencies_cases definitions selected_ids with
    ⟨st, hres, hpost⟩ | ⟨e, hres, hfold⟩
  · exfalso
    obtain ⟨s, hs, u, hr, hnone⟩ := hunk
    have hsmem : s ∈ st.order := (hpost.1.visited_iff_order s).mp
      (hpost.2.2.2.1 s (mem_fromKeys.mpr hs))
    have humem := (topo_reaches_le hpost.1.topo hpost.1.nodup_order hr hsmem).1
    have := topo_mem_defined hpost.1.topo humem
    rw [hnone] at this
    exact absurd this (by simp)
  · cases e with
    | cycleError c =>
      exact absurd (resolve_err_cycle_oncycle hfold) (hacyc c)
    | unknownDocumentError u =>
      obtain ⟨hnone, s, hs, hr⟩ := resolve_err_unknown_reaches hfold
      exact ⟨u, hres, hnone, s, hs, hr⟩

/-- Witness for the amended C7 on an acyclic catalog with one dangling
dependency. -/
theorem resolve_dependencies_unknown_detection_witness :
    ∃ u1, resolve_dependencies danglingCatalog ["alpha"] =
        Except.error (ResolveError.unknownDocumentError u1) ∧
      lookupDef danglingCatalog u1 = none ∧
      ∃ s1 ∈ ["alpha"], Reaches danglingCatalog s1 u1 :=
  resolve_dependencies_unknown_detection danglingCatalog ["alpha"]
    (@acyclic_of_cert danglingCatalog danglingRanks (by decide))
    ⟨"alpha", by decide, "missing",
     Reaches.step ⟨mkDefinition "alpha" ["beta", "missing"], rfl, by decide⟩
       (Reaches.refl "missing"), rfl⟩

/-- Claim C8: dependency resolution is deterministic; the output of
`resolve_dependencies` is a function of the catalog's ordered dependency
data (`depView`: key order and per-key dependency-list order) and of the
input id list alone, so two runs over the same catalog and input — even
over catalogs differing in every field the resolver does not consult —
produce identical orderings. -/
theorem resolve_dependencies_deterministic (A B : Definitions)
    (h : depView A = depView B) (selected_ids : List String) :
    resolve_dependencies A selected_ids = resolve_dependencies B selected_ids := by
  unfold resolve_dependencies
  rw [show resolveFuel A = resolveFuel B from by
    unfold resolveFuel; rw [catalogKeys_depView h]]
  rw [visitDeps_congr (visit_depView_congr h (resolveFuel B))
    (fromKeys selected_ids) initState]

/-- Witness for C8: two catalog variants agreeing only on dependency data
resolve identically. -/
theorem resolve_dependencies_deterministic_witness :
    depView variantCatalogA = depView variantCatalogB ∧
    resolve_dependencies variantCatalogA ["alpha"] =
      resolve_dependencies variantCatalogB ["alpha"] :=
  ⟨by rfl, resolve_dependencies_deterministic variantCatalogA variantCatalogB
    (by rfl) ["alpha"]⟩

/-- Claim C10: whenever `resolve_dependencies` succeeds, the returned
ordering contains each document id at most once — also under duplicate
selected ids and shared dependencies — and contains every selected id
together with all ids transitively reachable from it. -/
theorem resolve_dependencies_output_members (definitions : Definitions)
    (selected_ids : List String) (l : List String)
    (hres : resolve_dependencies definitions selected_ids = Except.ok l) :
    l.Nodup ∧ (∀ s ∈ selected_ids, s ∈ l) ∧
      (∀ s ∈ selected_ids, ∀ x, Reaches definitions s x → x ∈ l) := by
  rcases resolve_dependencies_cases definitions selected_ids with
    ⟨st, hres2, hpost⟩ | ⟨e, hres2, -⟩
  · rw [hres2] at hres
    have hl : st.order = l := Except.ok.inj hres
    subst hl
    have hmem : ∀ s ∈ selected_ids, s ∈ st.order := fun s hs =>
      (hpost.1.visited_iff_order s).mp (hpost.2.2.2.1 s (mem_fromKeys.mpr hs))
    exact ⟨hpost.1.nodup_order, hmem, fun s hs x hr =>
      (topo_reaches_le hpost.1.topo hpost.1.nodup_order hr (hmem s hs)).1⟩
  · rw [hres2] at hres
    exact absurd hres (by simp)

/-- Witness for C10: a run with a duplicated selected id and a shared
dependency yields a duplicate-free ordering containing the selected ids and
their transitive dependency. -/
theorem resolve_dependencies_output_members_witness :
    resolve_dependencies sharedDepCatalog ["left", "right", "left"] =
      Except.ok ["base", "left", "right"] ∧
    (["base", "left", "right"] : List String).Nodup ∧
    "left" ∈ ["base", "left", "right"] ∧
    "base" ∈ ["base", "left", "right"] := by
  have h := resolve_dependencies_output_members sharedDepCatalog
    ["left", "right", "left"] ["base", "left", "right"] (by rfl)
  exact ⟨by rfl, h.1, h.2.1 "left" (by decide),
    h.2.2 "left" (by decide) "base"
      (Reaches.step ⟨mkDefinition "left" ["base"], rfl, by decide⟩
        (Reaches.refl "base"))⟩

end DocumentCatalog

namespace QualityGate

/-- Claim C3: whenever the V1 score is strictly below the threshold, the
gate performs the improvement step exactly once (one `improve_document`
event in the trace, never two): it returns the V2 artifact (the improved
content and its saved path) when improving and saving both succeed, and
falls back to the V1 artifact when either raises — without a second
improvement in any case, whatever the V2 check reports. -/
theorem quality_gate_single_improvement (env : GateEnv) (agent_value : String)
    (quality_threshold : Rat) (v1_file_path v1_content : String)
    (hv1 : env.generate_v1 = Except.ok (v1_file_path, v1_content))
    (hlow : (scoreV1 env v1_content).1 < quality_threshold) :
    ∃ result tr,
      run_agent_with_quality_loop env agent_value quality_threshold =
        Except.ok (result, tr) ∧
      tr.count GateEvent.improve_document = 1 ∧
      ((∃ improved_doc v2_file_path,
          env.improve_document v1_content
              (feedbackV1 env agent_value v1_content (scoreV1 env v1_content).1
                quality_threshold)
              (scoreV1 env v1_content).1 (detailsOf (scoreV1 env v1_content).2) =
            Except.ok improved_doc ∧
          env.write_file improved_doc = Except.ok v2_file_path ∧
          result = (v2_file_path, improved_doc)) ∨
       (result = (v1_file_path, v1_content) ∧
        ((∃ e, env.improve_document v1_content
              (feedbackV1 env agent_value v1_content (scoreV1 env v1_content).1
                quality_threshold)
              (scoreV1 env v1_content).1 (detailsOf (scoreV1 env v1_content).2) =
            Except.error e) ∨
         (∃ improved_doc e,
            env.improve_document v1_content
                (feedbackV1 env agent_value v1_content (scoreV1 env v1_content).1
                  quality_threshold)
                (scoreV1 env v1_content).1 (detailsOf (scoreV1 env v1_content).2) =
              Except.ok improved_doc ∧
            env.write_file improved_doc = Except.error e)))) := by
  unfold run_agent_with_quality_loop
  simp only [hv1]
  rw [if_neg (not_le.mpr hlow)]
  cases himp : env.improve_document v1_content
      (feedbackV1 env agent_value v1_content (scoreV1 env v1_content).1
        quality_threshold)
      (scoreV1 env v1_content).1 (detailsOf (scoreV1 env v1_content).2) with
  | error e =>
    exact ⟨(v1_file_path, v1_content),
      [GateEvent.generate_v1, GateEvent.check_quality_v1] ++
        [GateEvent.generate_feedback] ++ [GateEvent.improve_document],
      rfl, by rfl, Or.inr ⟨rfl, Or.inl ⟨e, rfl⟩⟩⟩
  | ok improved_doc =>
    dsimp only
    cases hw : env.write_file improved_doc with
    | error e =>
      exact ⟨(v1_file_path, v1_content),
        [GateEvent.generate_v1, GateEvent.check_quality_v1] ++
          [GateEvent.generate_feedback] ++
          [GateEvent.improve_document, GateEvent.write_v2],
        rfl, by rfl, Or.inr ⟨rfl, Or.inr ⟨improved_doc, e, rfl, hw⟩⟩⟩
    | ok v2_file_path =>
      exact ⟨(v2_file_path, improved_doc),
        [GateEvent.generate_v1, GateEvent.check_quality_v1] ++
          [GateEvent.generate_feedback] ++
          [GateEvent.improve_document, GateEvent.write_v2,
            GateEvent.save_context, GateEvent.check_quality_v2],
        rfl, by rfl, Or.inl ⟨improved_doc, v2_file_path, rfl, hw, rfl⟩⟩

/-- Witness for C3 on a concrete run scoring 65 against threshold 80. -/
theorem quality_gate_single_improvement_witness :
    (scoreV1 lowScoreEnv "v1 text").1 < 80 ∧
    ∃ result tr,
      run_agent_with_quality_loop lowScoreEnv "requirements_analyst" 80 =
        Except.ok (result, tr) ∧
      tr.count GateEvent.improve_document = 1 := by
  obtain ⟨result, tr, h1, h2, -⟩ :=
    quality_gate_single_improvement lowScoreEnv "requirements_analyst" 80
      "docs/requirements.md" "v1 text" rfl (by decide)
  exact ⟨by decide, result, tr, h1, h2⟩

/-- Claim C4: whenever the V1 score meets the threshold, the gate returns
exactly the V1 artifact and the improvement step is never invoked (no
`improve_document` event in the trace). -/
theorem quality_gate_v1_accepted (env : GateEnv) (agent_value : String)
    (quality_threshold : Rat) (v1_file_path v1_content : String)
    (hv1 : env.generate_v1 = Except.ok (v1_file_path, v1_content))
    (hhigh : quality_threshold ≤ (scoreV1 env v1_content).1) :
    ∃ tr,
      run_agent_with_quality_loop env agent_value quality_threshold =
        Except.ok ((v1_file_path, v1_content), tr) ∧
      tr.count GateEvent.improve_document = 0 := by
  refine ⟨[GateEvent.generate_v1, GateEvent.check_quality_v1], ?_, by rfl⟩
  unfold run_agent_with_quality_loop
  simp only [hv1]
  rw [if_pos hhigh]

/-- Witness for C4 on a concrete run scoring 95 against threshold 80. -/
theorem quality_gate_v1_accepted_witness :
    (80 : Rat) ≤ (scoreV1 highScoreEnv "v1 text").1 ∧
    ∃ tr,
      run_agent_with_quality_loop highScoreEnv "requirements_analyst" 80 =
        Except.ok (("docs/requirements.md", "v1 text"), tr) ∧
      tr.count GateEvent.improve_document = 0 :=
  ⟨by decide, quality_gate_v1_accepted highScoreEnv "requirements_analyst" 80
    "docs/requirements.md" "v1 text" rfl (by decide)⟩

/-- Claim C6: when the scoring step raises, the exception is not propagated:
the score is treated as 0 (with no stored quality result), and for any
positive threshold the gate still returns a result, taking the single
improvement attempt. -/
theorem quality_gate_scoring_failure (env : GateEnv) (agent_value : String)
    (quality_threshold : Rat) (v1_file_path v1_content : String)
    (hv1 : env.generate_v1 = Except.ok (v1_file_path, v1_content))
    (hraise : (∃ e, env.get_checklist = Except.error e) ∨
      (∃ checklist e, env.get_checklist = Except.ok checklist ∧
        (if checklist.isSome then env.check_quality_for_type v1_content
         else env.check_quality_base v1_content) = Except.error e))
    (hpos : 0 < quality_threshold) :
    scoreV1 env v1_content = (0, none) ∧
    ∃ result tr,
      run_agent_with_quality_loop env agent_value quality_threshold =
        Except.ok (result, tr) ∧
      tr.count GateEvent.improve_document = 1 := by
  have hscore : scoreV1 env v1_content = (0, none) := by
    rcases hraise with ⟨e, he⟩ | ⟨checklist, e, hcl, he⟩
    · simp only [scoreV1, he]
    · simp only [scoreV1, hcl, he]
  refine ⟨hscore, ?_⟩
  have hlow : (scoreV1 env v1_content).1 < quality_threshold := by
    rw [hscore]; exact hpos
  unfold run_agent_with_quality_loop
  simp only [hv1]
  rw [if_neg (not_le.mpr hlow)]
  cases himp : env.improve_document v1_content
      (feedbackV1 env agent_value v1_content (scoreV1 env v1_content).1
        quality_threshold)
      (scoreV1 env v1_content).1 (detailsOf (scoreV1 env v1_content).2) with
  | error e =>
    exact ⟨(v1_file_path, v1_content),
      [GateEvent.generate_v1, GateEvent.check_quality_v1] ++
        [GateEvent.generate_feedback] ++ [GateEvent.improve_document],
      rfl, by rfl⟩
  | ok improved_doc =>
    dsimp only
    cases hw : env.write_file improved_doc with
    | error e =>
      exact ⟨(v1_file_path, v1_content),
        [GateEvent.generate_v1, GateEvent.check_quality_v1] ++
          [GateEvent.generate_feedback] ++
          [GateEvent.improve_document, GateEvent.write_v2],
        rfl, by rfl⟩
    | ok v2_file_path =>
      exact ⟨(v2_file_path, improved_doc),
        [GateEvent.generate_v1, GateEvent.check_quality_v1] ++
          [GateEvent.generate_feedback] ++
          [GateEvent.improve_document, GateEvent.write_v2,
            GateEvent.save_context, GateEvent.check_quality_v2],
        rfl, by rfl⟩

/-- Witness for C6 on a concrete run whose checker raises. -/
theorem quality_gate_scoring_failure_witness :
    scoreV1 scoreRaisesEnv "v1 text" = (0, none) ∧
    ∃ result tr,
      run_agent_with_quality_loop scoreRaisesEnv "requirements_analyst" 80 =
        Except.ok (result, tr) ∧
      tr.count GateEvent.improve_document = 1 :=
  quality_gate_scoring_failure scoreRaisesEnv "requirements_analyst" 80
    "docs/requirements.md" "v1 text" rfl
    (Or.inr ⟨some "requirements checklist", "checker crashed", rfl, rfl⟩)
    (by decide)

end QualityGate

namespace Workflow

theorem setStatus_status_same (r : WorkflowResults) (k v : String) :
    (setStatus r k v).status k = some v := by
  simp [setStatus]

theorem setStatus_status_other (r : WorkflowResults) (k v d : String)
    (h : d ≠ k) : (setStatus r k v).status d = r.status d := by
  simp [setStatus, h]

theorem setFile_status (r : WorkflowResults) (k v : String) :
    (setFile r k v).status = r.status := rfl

theorem setStatus_error (r : WorkflowResults) (k v : String) :
    (setStatus r k v).error = r.error := rfl

theorem setFile_error (r : WorkflowResults) (k v : String) :
    (setFile r k v).error = r.error := rfl

theorem setStatus_summary (r : WorkflowResults) (k v : String) :
    (setStatus r k v).phase2_summary = r.phase2_summary := rfl

theorem setFile_summary (r : WorkflowResults) (k v : String) :
    (setFile r k v).phase2_summary = r.phase2_summary := rfl

theorem recordPhase1_status (r : WorkflowResults) (doc fp d : String) :
    (recordPhase1 r doc fp).status d =
      if d = doc then some "complete_v2" else r.status d := by
  by_cases h : d = doc
  · subst h; simp [recordPhase1, setStatus, setFile]
  · simp [recordPhase1, setStatus, setFile, h]

theorem recordPhase1_summary (r : WorkflowResults) (doc fp : String) :
    (recordPhase1 r doc fp).phase2_summary = r.phase2_summary := rfl

theorem recordPhase1_error (r : WorkflowResults) (doc fp : String) :
    (recordPhase1 r doc fp).error = r.error := rfl

theorem processPhase1Task_req_none (env : WorkflowEnv) (acc : Phase1Acc)
    (t : Phase1Task)
    (h : t.agent_type = AgentType.requirements_analyst →
      env.phase1_results t.task_id = none)
    (h0 : acc.req_content = none) :
    (processPhase1Task env acc t).req_content = none := by
  unfold processPhase1Task
  cases hres : env.phase1_results t.task_id with
  | none => simpa using h0
  | some pc =>
    obtain ⟨fp, c⟩ := pc
    cases hag : t.agent_type
    case requirements_analyst =>
      rw [h hag] at hres
      exact absurd hres (by simp)
    all_goals simpa using h0

theorem processPhase1Task_req_mono (env : WorkflowEnv) (acc : Phase1Acc)
    (t : Phase1Task) (h : acc.req_content.isSome) :
    (processPhase1Task env acc t).req_content.isSome := by
  unfold processPhase1Task
  cases hres : env.phase1_results t.task_id with
  | none => simpa using h
  | some pc =>
    obtain ⟨fp, c⟩ := pc
    cases hag : t.agent_type
    all_goals first
    | (exact h)
    | (simp)

theorem processPhase1_aux_req_none (env : WorkflowEnv) :
    ∀ (ts : List Phase1Task) (acc : Phase1Acc),
    (∀ t ∈ ts, t.agent_type = AgentType.requirements_analyst →
      env.phase1_results t.task_id = none) →
    acc.req_content = none →
    (ts.foldl (processPhase1Task env) acc).req_content = none := by
  intro ts
  induction ts with
  | nil => intro acc _ h0; exact h0
  | cons t ts ih =>
    intro acc h h0
    simp only [List.foldl_cons]
    exact ih _ (fun t1 ht1 => h t1 (List.mem_cons_of_mem t ht1))
      (processPhase1Task_req_none env acc t (h t (by simp)) h0)

theorem processPhase1_aux_req_mono (env : WorkflowEnv) :
    ∀ (ts : List Phase1Task) (acc : Phase1Acc), acc.req_content.isSome →
    (ts.foldl (processPhase1Task env) acc).req_content.isSome := by
  intro ts
  induction ts with
  | nil => intro acc h0; exact h0
  | cons t ts ih =>
    intro acc h0
    simp only [List.foldl_cons]
    exact ih _ (processPhase1Task_req_mono env acc t h0)

theorem processPhase1_req_none (env : WorkflowEnv) (h : rootTaskMissing env) :
    (processPhase1 env).req_content = none :=
  processPhase1_aux_req_none env env.phase1_tasks _ h rfl

theorem processPhase1Task_req_trigger (env : WorkflowEnv) (acc : Phase1Acc)
    (t : Phase1Task)
    (hag : t.agent_type = AgentType.requirements_analyst)
    (hres : (env.phase1_results t.task_id).isSome) :
    (processPhase1Task env acc t).req_content.isSome := by
  unfold processPhase1Task
  cases hr2 : env.phase1_results t.task_id with
  | none => rw [hr2] at hres; exact absurd hres (by simp)
  | some pc =>
    obtain ⟨fp, c⟩ := pc
    simp [hag]

theorem processPhase1_req_some (env : WorkflowEnv) (h : rootTaskPresent env) :
    (processPhase1 env).req_content.isSome := by
  obtain ⟨⟨t, ht, hag, hres⟩, -⟩ := h
  obtain ⟨l1, l2, hsplit⟩ := List.append_of_mem ht
  unfold processPhase1
  rw [hsplit, List.foldl_append, List.foldl_cons]
  exact processPhase1_aux_req_mono env l2 _
    (processPhase1Task_req_trigger env _ t hag hres)

theorem processPhase1Task_req_truthy_mono (env : WorkflowEnv) (acc : Phase1Acc)
    (t : Phase1Task)
    (hok : t.agent_type = AgentType.requirements_analyst →
      resultContentEmpty (env.phase1_results t.task_id) = false)
    (h0 : reqContentFalsy acc.req_content = false) :
    reqContentFalsy (processPhase1Task env acc t).req_content = false := by
  unfold processPhase1Task
  cases hr2 : env.phase1_results t.task_id with
  | none => simpa using h0
  | some pc =>
    obtain ⟨fp, c⟩ := pc
    cases hag : t.agent_type
    case requirements_analyst =>
      have hemp := hok hag
      rw [hr2] at hemp
      exact hemp
    all_goals exact h0

theorem processPhase1Task_req_truthy_trigger (env : WorkflowEnv)
    (acc : Phase1Acc) (t : Phase1Task)
    (hag : t.agent_type = AgentType.requirements_analyst)
    (hres : (env.phase1_results t.task_id).isSome)
    (hok : resultContentEmpty (env.phase1_results t.task_id) = false) :
    reqContentFalsy (processPhase1Task env acc t).req_content = false := by
  unfold processPhase1Task
  cases hr2 : env.phase1_results t.task_id with
  | none => rw [hr2] at hres; exact absurd hres (by simp)
  | some pc =>
    obtain ⟨fp, c⟩ := pc
    rw [hr2] at hok
    simp only [hag]
    exact hok

theorem processPhase1_aux_req_truthy (env : WorkflowEnv) :
    ∀ (ts : List Phase1Task) (acc : Phase1Acc),
    (∀ t ∈ ts, t.agent_type = AgentType.requirements_analyst →
      resultContentEmpty (env.phase1_results t.task_id) = false) →
    reqContentFalsy acc.req_content = false →
    reqContentFalsy (ts.foldl (processPhase1Task env) acc).req_content = false := by
  intro ts
  induction ts with
  | nil => intro acc _ h0; exact h0
  | cons t ts ih =>
    intro acc h h0
    simp only [List.foldl_cons]
    exact ih _ (fun t1 ht1 => h t1 (List.mem_cons_of_mem t ht1))
      (processPhase1Task_req_truthy_mono env acc t (h t (by simp)) h0)

theorem processPhase1_req_truthy (env : WorkflowEnv) (h : rootTaskPresent env) :
    reqContentFalsy (processPhase1 env).req_content = false := by
  obtain ⟨⟨t, ht, hag, hres⟩, hall⟩ := h
  obtain ⟨l1, l2, hsplit⟩ := List.append_of_mem ht
  unfold processPhase1
  rw [hsplit, List.foldl_append, List.foldl_cons]
  refine processPhase1_aux_req_truthy env l2 _ ?_ ?_
  · intro t1 ht1 hag1
    exact hall t1 (by rw [hsplit]; simp [ht1]) hag1
  · exact processPhase1Task_req_truthy_trigger env _ t hag hres (hall t ht hag)

theorem mem_insertSorted {x y : String} {l : List String} :
    x ∈ insertSorted y l ↔ x = y ∨ x ∈ l := by
  induction l with
  | nil => simp [insertSorted]
  | cons z zs ih =>
    by_cases h : y ≤ z
    · simp [insertSorted, h]
    · simp only [insertSorted, if_neg h, List.mem_cons, ih]
      tauto

theorem mem_insertionSort {x : String} {l : List String} :
    x ∈ insertionSort l ↔ x ∈ l := by
  induction l with
  | nil => simp [insertionSort]
  | cons y ys ih => simp [insertionSort, mem_insertSorted, ih]

theorem mem_pySortedSet {x : String} {l : List String} :
    x ∈ pySortedSet l ↔ x ∈ l := by
  simp [pySortedSet, mem_insertionSort, DocumentCatalog.mem_fromKeys]

theorem mem_allFailedDocs_phase1 (r : WorkflowResults) (d : String)
    (hd : d ∈ phase1DocTypes) (hst : r.status d = some "failed") :
    d ∈ allFailedDocs r := by
  unfold allFailedDocs
  exact List.mem_append.mpr (Or.inl (List.mem_append.mpr (Or.inl
    (List.mem_filter.mpr ⟨hd, by simp [hst]⟩))))

theorem mem_allFailedDocs_phase2 (r : WorkflowResults) (s : Phase2Summary)
    (entry : FailedTask) (hsum : r.phase2_summary = some s)
    (he : entry ∈ s.failed) : entry.doc_type ∈ allFailedDocs r := by
  unfold allFailedDocs
  simp only [hsum]
  exact List.mem_append.mpr (Or.inl (List.mem_append.mpr (Or.inr
    (List.mem_map_of_mem _ he))))

theorem addExecutionSummary_error (r : WorkflowResults) :
    (addExecutionSummary r).error = r.error := rfl

theorem addExecutionSummary_status (r : WorkflowResults) :
    (addExecutionSummary r).status = r.status := rfl

theorem addExecutionSummary_phase2_summary (r : WorkflowResults) :
    (addExecutionSummary r).phase2_summary = r.phase2_summary := rfl

theorem addExecutionSummary_failed_documents (r : WorkflowResults) :
    ∃ es, (addExecutionSummary r).execution_summary = some es ∧
      es.failed_documents = pySortedSet (allFailedDocs r) := ⟨_, rfl, rfl⟩

theorem processPhase1Task_status_other (env : WorkflowEnv) (acc : Phase1Acc)
    (t : Phase1Task) (d : String)
    (hne : phase1DocType t.agent_type ≠ d) :
    (processPhase1Task env acc t).results.status d = acc.results.status d := by
  unfold processPhase1Task
  cases hres : env.phase1_results t.task_id with
  | none =>
    dsimp only
    exact setStatus_status_other _ _ _ _ (Ne.symm hne)
  | some pc =>
    obtain ⟨fp, c⟩ := pc
    cases hag : t.agent_type
    all_goals rw [hag] at hne
    all_goals simp only [phase1DocType] at hne
    all_goals dsimp only
    all_goals first
    | rfl
    | (rw [recordPhase1_status, if_neg (Ne.symm hne)])

theorem processPhase1Task_status_failed (env : WorkflowEnv) (acc : Phase1Acc)
    (t : Phase1Task) (hres : env.phase1_results t.task_id = none) :
    (processPhase1Task env acc t).results.status (phase1DocType t.agent_type) =
      some "failed" := by
  unfold processPhase1Task
  simp only [hres]
  exact setStatus_status_same _ _ _

theorem processPhase1_aux_status (env : WorkflowEnv) (d : String) (t : Phase1Task)
    (hres : env.phase1_results t.task_id = none) :
    ∀ (ts : List Phase1Task) (acc : Phase1Acc),
    (∀ t1 ∈ ts, phase1DocType t1.agent_type = d → t1 = t) →
    acc.results.status d = some "failed" →
    ((ts.foldl (processPhase1Task env) acc).results).status d = some "failed" := by
  intro ts
  induction ts with
  | nil => intro acc _ h0; exact h0
  | cons t1 ts ih =>
    intro acc h h0
    simp only [List.foldl_cons]
    refine ih _ (fun t2 ht2 => h t2 (List.mem_cons_of_mem t1 ht2)) ?_
    by_cases hd : phase1DocType t1.agent_type = d
    · have ht1 : t1 = t := h t1 (by simp) hd
      subst ht1
      rw [← hd]
      exact processPhase1Task_status_failed env acc t1 hres
    · rw [processPhase1Task_status_other env acc t1 d hd]
      exact h0

theorem processPhase1_status_failed (env : WorkflowEnv) (t : Phase1Task)
    (ht : t ∈ env.phase1_tasks)
    (hres : env.phase1_results t.task_id = none)
    (huniq : ∀ t1 ∈ env.phase1_tasks,
      phase1DocType t1.agent_type = phase1DocType t.agent_type → t1 = t) :
    (processPhase1 env).results.status (phase1DocType t.agent_type) =
      some "failed" := by
  obtain ⟨l1, l2, hsplit⟩ := List.append_of_mem ht
  unfold processPhase1
  rw [hsplit, List.foldl_append, List.foldl_cons]
  refine processPhase1_aux_status env _ t hres l2 _ ?_ ?_
  · intro t1 ht1 hdt
    exact huniq t1 (by rw [hsplit]; simp [ht1]) hdt
  · exact processPhase1Task_status_failed env _ t hres

theorem processPhase1_aux_summary (env : WorkflowEnv) :
    ∀ (ts : List Phase1Task) (acc : Phase1Acc),
    (ts.foldl (processPhase1Task env) acc).results.phase2_summary =
      acc.results.phase2_summary := by
  intro ts
  induction ts with
  | nil => intro acc; rfl
  | cons t1 ts ih =>
    intro acc
    simp only [List.foldl_cons]
    rw [ih]
    unfold processPhase1Task
    cases env.phase1_results t1.task_id with
    | none => rfl
    | some pc =>
      obtain ⟨fp, c⟩ := pc
      cases t1.agent_type <;> rfl

theorem processPhase1_aux_error (env : WorkflowEnv) :
    ∀ (ts : List Phase1Task) (acc : Phase1Acc),
    (ts.foldl (processPhase1Task env) acc).results.error = acc.results.error := by
  intro ts
  induction ts with
  | nil => intro acc; rfl
  | cons t1 ts ih =>
    intro acc
    simp only [List.foldl_cons]
    rw [ih]
    unfold processPhase1Task
    cases env.phase1_results t1.task_id with
    | none => rfl
    | some pc =>
      obtain ⟨fp, c⟩ := pc
      cases t1.agent_type <;> rfl

theorem processPhase2Task_error (env : WorkflowEnv) (acc : Phase2Acc)
    (t : Phase2Task) :
    (processPhase2Task env acc t).results.error = acc.results.error := by
  unfold processPhase2Task
  cases env.phase2_state t.task_id with
  | none => rfl
  | some st =>
    cases st with
    | failed err => rfl
    | complete =>
      cases env.phase2_file_path t.task_id with
      | none => rfl
      | some fp =>
        dsimp only
        cases env.read_file fp with
        | ok c => rfl
        | error e => rfl
    | pending => rfl
    | running => rfl

theorem processPhase2Task_failed_mono (env : WorkflowEnv) (acc : Phase2Acc)
    (t : Phase2Task) (x : FailedTask) (hx : x ∈ acc.failed) :
    x ∈ (processPhase2Task env acc t).failed := by
  unfold processPhase2Task
  cases env.phase2_state t.task_id with
  | none => simp [hx]
  | some st =>
    cases st with
    | failed err => simp [hx]
    | complete =>
      cases env.phase2_file_path t.task_id with
      | none => simp [hx]
      | some fp =>
        dsimp only
        cases env.read_file fp with
        | ok c => simpa using hx
        | error e => simp [hx]
    | pending => simp [hx]
    | running => simp [hx]

theorem processPhase2Task_failed_trigger (env : WorkflowEnv) (acc : Phase2Acc)
    (t : Phase2Task) (err : Option String)
    (hst : env.phase2_state t.task_id = some (TaskStatus.failed err)) :
    (⟨t.task_id, phase2DocType t.agent_type, t.agent_type.value,
      err.getD "Unknown error"⟩ : FailedTask) ∈
      (processPhase2Task env acc t).failed := by
  unfold processPhase2Task
  simp only [hst]
  simp

theorem processPhase2_aux_failed_mono (env : WorkflowEnv) :
    ∀ (ts : List Phase2Task) (acc : Phase2Acc) (x : FailedTask),
    x ∈ acc.failed → x ∈ (ts.foldl (processPhase2Task env) acc).failed := by
  intro ts
  induction ts with
  | nil => intro acc x hx; exact hx
  | cons t1 ts ih =>
    intro acc x hx
    simp only [List.foldl_cons]
    exact ih _ x (processPhase2Task_failed_mono env acc t1 x hx)

theorem processPhase2_summary_failed_mem (env : WorkflowEnv) (r : WorkflowResults)
    (t2 : Phase2Task) (err : Option String)
    (ht2 : t2 ∈ env.phase2_tasks)
    (hst : env.phase2_state t2.task_id = some (TaskStatus.failed err)) :
    ∃ summary, (processPhase2 env r).phase2_summary = some summary ∧
      (⟨t2.task_id, phase2DocType t2.agent_type, t2.agent_type.value,
        err.getD "Unknown error"⟩ : FailedTask) ∈ summary.failed := by
  refine ⟨_, rfl, ?_⟩
  obtain ⟨l1, l2, hsplit⟩ := List.append_of_mem ht2
  show _ ∈ (env.phase2_tasks.foldl (processPhase2Task env)
    { results := r, successful := [], failed := [] }).failed
  rw [hsplit, List.foldl_append, List.foldl_cons]
  exact processPhase2_aux_failed_mono env l2 _ _
    (processPhase2Task_failed_trigger env _ t2 err hst)

theorem processPhase2_aux_error (env : WorkflowEnv) :
    ∀ (ts : List Phase2Task) (acc : Phase2Acc),
    (ts.foldl (processPhase2Task env) acc).results.error = acc.results.error := by
  intro ts
  induction ts with
  | nil => intro acc; rfl
  | cons t1 ts ih =>
    intro acc
    simp only [List.foldl_cons]
    rw [ih, processPhase2Task_error]

theorem processPhase2_error (env : WorkflowEnv) (r : WorkflowResults) :
    (processPhase2 env r).error = r.error := by
  show (env.phase2_tasks.foldl (processPhase2Task env)
    { results := r, successful := [], failed := [] }).results.error = r.error
  rw [processPhase2_aux_error]

theorem processPhase3_error (env : WorkflowEnv) (r : WorkflowResults) :
    (processPhase3 env r).error = r.error := by
  unfold processPhase3
  cases env.quality_review <;> cases env.claude_cli_doc <;>
    cases env.format_convert_all <;> cases env.format_convert_html <;> rfl

theorem processPhase3_summary (env : WorkflowEnv) (r : WorkflowResults) :
    (processPhase3 env r).phase2_summary = r.phase2_summary := by
  unfold processPhase3
  cases env.quality_review <;> cases env.claude_cli_doc <;>
    cases env.format_convert_all <;> cases env.format_convert_html <;> rfl

theorem processPhase3_status_other (env : WorkflowEnv) (r : WorkflowResults)
    (d : String) (h1 : d ≠ "quality_review")
    (h2 : d ≠ "claude_cli_documentation") (h3 : d ≠ "format_conversions") :
    (processPhase3 env r).status d = r.status d := by
  unfold processPhase3
  cases env.quality_review <;> cases env.claude_cli_doc <;>
    cases env.format_convert_all <;> cases env.format_convert_html <;>
    simp [setStatus, setFile, h1, h2, h3]

theorem processPhase2Task_status_other (env : WorkflowEnv) (acc : Phase2Acc)
    (t : Phase2Task) (d : String)
    (hne : phase2DocType t.agent_type ≠ d) :
    (processPhase2Task env acc t).results.status d = acc.results.status d := by
  have hd : d ≠ phase2DocType t.agent_type := Ne.symm hne
  unfold processPhase2Task
  cases env.phase2_state t.task_id with
  | none =>
    dsimp only
    exact setStatus_status_other _ _ _ _ hd
  | some st =>
    cases st with
    | failed err =>
      dsimp only
      exact setStatus_status_other _ _ _ _ hd
    | complete =>
      cases env.phase2_file_path t.task_id with
      | none =>
        dsimp only
        exact setStatus_status_other _ _ _ _ hd
      | some fp =>
        dsimp only
        cases env.read_file fp with
        | ok c =>
          dsimp only
          rw [setStatus_status_other _ _ _ _ hd, setFile_status]
        | error e =>
          dsimp only
          rw [setStatus_status_other _ _ _ _ hd,
            setStatus_status_other _ _ _ _ hd, setFile_status]
    | pending =>
      dsimp only
      exact setStatus_status_other _ _ _ _ hd
    | running =>
      dsimp only
      exact setStatus_status_other _ _ _ _ hd

theorem processPhase2Task_status_failed (env : WorkflowEnv) (acc : Phase2Acc)
    (t : Phase2Task) (err : Option String)
    (hst : env.phase2_state t.task_id = some (TaskStatus.failed err)) :
    (processPhase2Task env acc t).results.status (phase2DocType t.agent_type) =
      some "failed" := by
  unfold processPhase2Task
  simp only [hst]
  exact setStatus_status_same _ _ _

theorem processPhase2_aux_status_keep (env : WorkflowEnv) (d : String)
    (t2 : Phase2Task) (err : Option String)
    (hst : env.phase2_state t2.task_id = some (TaskStatus.failed err)) :
    ∀ (ts : List Phase2Task) (acc : Phase2Acc),
    (∀ t1 ∈ ts, phase2DocType t1.agent_type = d → t1 = t2) →
    acc.results.status d = some "failed" →
    (ts.foldl (processPhase2Task env) acc).results.status d = some "failed" := by
  intro ts
  induction ts with
  | nil => intro acc _ h0; exact h0
  | cons t1 ts ih =>
    intro acc h h0
    simp only [List.foldl_cons]
    refine ih _ (fun t3 ht3 => h t3 (List.mem_cons_of_mem t1 ht3)) ?_
    by_cases hd : phase2DocType t1.agent_type = d
    · have ht1 : t1 = t2 := h t1 (by simp) hd
      subst ht1
      rw [← hd]
      exact processPhase2Task_status_failed env acc t1 err hst
    · rw [processPhase2Task_status_other env acc t1 d hd]
      exact h0

theorem processPhase2_aux_status_other (env : WorkflowEnv) (d : String) :
    ∀ (ts : List Phase2Task) (acc : Phase2Acc),
    (∀ t1 ∈ ts, phase2DocType t1.agent_type ≠ d) →
    (ts.foldl (processPhase2Task env) acc).results.status d =
      acc.results.status d := by
  intro ts
  induction ts with
  | nil => intro acc _; rfl
  | cons t1 ts ih =>
    intro acc h
    simp only [List.foldl_cons]
    rw [ih _ (fun t3 ht3 => h t3 (List.mem_cons_of_mem t1 ht3)),
      processPhase2Task_status_other env acc t1 d (h t1 (by simp))]

theorem processPhase2_status_eq (env : WorkflowEnv) (r : WorkflowResults)
    (d : String) :
    (processPhase2 env r).status d =
      (env.phase2_tasks.foldl (processPhase2Task env)
        { results := r, successful := [], failed := [] }).results.status d := rfl

theorem processPhase2_status_failed (env : WorkflowEnv) (r : WorkflowResults)
    (t2 : Phase2Task) (err : Option String)
    (ht2 : t2 ∈ env.phase2_tasks)
    (hst : env.phase2_state t2.task_id = some (TaskStatus.failed err))
    (huniq : ∀ t1 ∈ env.phase2_tasks,
      phase2DocType t1.agent_type = phase2DocType t2.agent_type → t1 = t2) :
    (processPhase2 env r).status (phase2DocType t2.agent_type) = some "failed" := by
  rw [processPhase2_status_eq]
  obtain ⟨l1, l2, hsplit⟩ := List.append_of_mem ht2
  rw [hsplit, List.foldl_append, List.foldl_cons]
  refine processPhase2_aux_status_keep env _ t2 err hst l2 _ ?_ ?_
  · intro t1 ht1 hdt
    exact huniq t1 (by rw [hsplit]; simp [ht1]) hdt
  · exact processPhase2Task_status_failed env _ t2 err hst

theorem processPhase2_status_other (env : WorkflowEnv) (r : WorkflowResults)
    (d : String)
    (h : ∀ t2 ∈ env.phase2_tasks, phase2DocType t2.agent_type ≠ d) :
    (processPhase2 env r).status d = r.status d := by
  rw [processPhase2_status_eq]
  exact processPhase2_aux_status_other env d env.phase2_tasks _ h

theorem processPhase1_summary_none (env : WorkflowEnv) :
    (processPhase1 env).results.phase2_summary = none :=
  processPhase1_aux_summary env env.phase1_tasks _

theorem processPhase1_error_none (env : WorkflowEnv) :
    (processPhase1 env).results.error = none :=
  processPhase1_aux_error env env.phase1_tasks _

theorem generate_all_docs_success_path (env : WorkflowEnv)
    (hroot : rootTaskPresent env)
    (hctx : env.context_has_requirements = true)
    (hlate : env.late_phase_error = none) :
    generate_all_docs env =
      addExecutionSummary
        (processPhase3 env (processPhase2 env (processPhase1 env).results)) := by
  have hfalsy := processPhase1_req_truthy env hroot
  unfold generate_all_docs
  simp only [hfalsy, hctx, hlate, if_true]

/-- Claim C5: failure containment of `generate_all_docs`.  The function is
total — the caller always receives a results dictionary, never a raised
exception.  (1) When no requirements task produced a result, the falsy root
guard `if not req_content:` fires and the run aborts: the returned
dictionary is tagged with the root error and Phase 2 never ran (no
`phase2_summary`).  (2) When the root requirements document was produced
with non-empty content but another Phase-1 task has no result, that task's
document type is marked "failed" in the status map, listed among the failed
documents of the final execution summary (its document type is one of the
five the summary inspects), and the run continues without an error tag
(given that no later task or packaging step reuses the same status key and
nothing else in the guarded region raises).  (3) When a Phase-2 task's
executor state is FAILED, its document type is marked "failed" (same
proviso), an entry carrying the task id, document type, agent tag and error
message is added to the failed-task list of `phase2_summary`, its document
type is listed among the execution summary's failed documents, and the run
still returns without an error tag. -/
theorem generate_all_docs_failure_containment (env : WorkflowEnv) :
    (rootTaskMissing env →
      (generate_all_docs env).error = some "Requirements not generated in Phase 1" ∧
      (generate_all_docs env).phase2_summary = none) ∧
    (∀ t ∈ env.phase1_tasks,
      env.phase1_results t.task_id = none →
      (∀ t1 ∈ env.phase1_tasks,
        phase1DocType t1.agent_type = phase1DocType t.agent_type → t1 = t) →
      (∀ t2 ∈ env.phase2_tasks,
        phase2DocType t2.agent_type ≠ phase1DocType t.agent_type) →
      phase1DocType t.agent_type ≠ "quality_review" →
      phase1DocType t.agent_type ≠ "claude_cli_documentation" →
      phase1DocType t.agent_type ≠ "format_conversions" →
      rootTaskPresent env → env.context_has_requirements = true →
      env.late_phase_error = none →
      (generate_all_docs env).status (phase1DocType t.agent_type) = some "failed" ∧
      (generate_all_docs env).error = none ∧
      (phase1DocType t.agent_type ∈ phase1DocTypes →
        ∃ es, (generate_all_docs env).execution_summary = some es ∧
          phase1DocType t.agent_type ∈ es.failed_documents)) ∧
    (∀ t2 ∈ env.phase2_tasks, ∀ err,
      env.phase2_state t2.task_id = some (TaskStatus.failed err) →
      rootTaskPresent env → env.context_has_requirements = true →
      env.late_phase_error = none →
      ((∀ t1 ∈ env.phase2_tasks,
          phase2DocType t1.agent_type = phase2DocType t2.agent_type → t1 = t2) →
        phase2DocType t2.agent_type ≠ "quality_review" →
        phase2DocType t2.agent_type ≠ "claude_cli_documentation" →
        phase2DocType t2.agent_type ≠ "format_conversions" →
        (generate_all_docs env).status (phase2DocType t2.agent_type) =
          some "failed") ∧
      (∃ summary, (generate_all_docs env).phase2_summary = some summary ∧
        (⟨t2.task_id, phase2DocType t2.agent_type, t2.agent_type.value,
          err.getD "Unknown error"⟩ : FailedTask) ∈ summary.failed) ∧
      (∃ es, (generate_all_docs env).execution_summary = some es ∧
        phase2DocType t2.agent_type ∈ es.failed_documents) ∧
      (generate_all_docs env).error = none) := by
  refine ⟨?_, ?_, ?_⟩
  · intro hmiss
    have hnone := processPhase1_req_none env hmiss
    have hfalsy : reqContentFalsy (processPhase1 env).req_content = true := by
      rw [hnone]
      rfl
    have heq : generate_all_docs env =
        { (processPhase1 env).results with
          error := some "Requirements not generated in Phase 1" } := by
      unfold generate_all_docs
      simp only [hfalsy]
    rw [heq]
    exact ⟨rfl, processPhase1_summary_none env⟩
  · intro t ht hres huniq hp2 hq hcl hfc hroot hctx hlate
    rw [generate_all_docs_success_path env hroot hctx hlate]
    have hst3 : (processPhase3 env
        (processPhase2 env (processPhase1 env).results)).status
        (phase1DocType t.agent_type) = some "failed" := by
      rw [processPhase3_status_other env _ _ hq hcl hfc,
        processPhase2_status_other env _ _ hp2]
      exact processPhase1_status_failed env t ht hres huniq
    refine ⟨?_, ?_, ?_⟩
    · rw [addExecutionSummary_status]
      exact hst3
    · rw [addExecutionSummary_error, processPhase3_error, processPhase2_error]
      exact processPhase1_error_none env
    · intro hmem
      obtain ⟨es, hes, hfd⟩ := addExecutionSummary_failed_documents
        (processPhase3 env (processPhase2 env (processPhase1 env).results))
      refine ⟨es, hes, ?_⟩
      rw [hfd]
      exact mem_pySortedSet.mpr (mem_allFailedDocs_phase1 _ _ hmem hst3)
  · intro t2 ht2 err hst hroot hctx hlate
    rw [generate_all_docs_success_path env hroot hctx hlate]
    obtain ⟨summary, hs1, hs2⟩ := processPhase2_summary_failed_mem env
      (processPhase1 env).results t2 err ht2 hst
    have hs3 : (processPhase3 env
        (processPhase2 env (processPhase1 env).results)).phase2_summary =
        some summary := by
      rw [processPhase3_summary]
      exact hs1
    refine ⟨?_, ?_, ?_, ?_⟩
    · intro huniq hq hcl hfc
      rw [addExecutionSummary_status,
        processPhase3_status_other env _ _ hq hcl hfc]
      exact processPhase2_status_failed env _ t2 err ht2 hst huniq
    · rw [addExecutionSummary_phase2_summary]
      exact ⟨summary, hs3, hs2⟩
    · obtain ⟨es, hes, hfd⟩ := addExecutionSummary_failed_documents
        (processPhase3 env (processPhase2 env (processPhase1 env).results))
      refine ⟨es, hes, ?_⟩
      rw [hfd]
      exact mem_pySortedSet.mpr (mem_allFailedDocs_phase2 _ summary _ hs3 hs2)
    · rw [addExecutionSummary_error, processPhase3_error, processPhase2_error]
      exact processPhase1_error_none env

/-- Witness for C5: the root-failure run returns an error-tagged dictionary
without a Phase-2 summary; the partial-failure run marks the charter and API
documents failed, lists both among the execution summary's failed
documents, records the API failure in the failed-task list, and returns
without an error tag. -/
theorem generate_all_docs_failure_containment_witness :
    ((generate_all_docs rootFailedEnv).error =
        some "Requirements not generated in Phase 1" ∧
      (generate_all_docs rootFailedEnv).phase2_summary = none) ∧
    ((generate_all_docs partialFailureEnv).status "project_charter" =
        some "failed" ∧
      (generate_all_docs partialFailureEnv).error = none) ∧
    (∃ es, (generate_all_docs partialFailureEnv).execution_summary = some es ∧
      "project_charter" ∈ es.failed_documents) ∧
    ((generate_all_docs partialFailureEnv).status "api_documentation" =
        some "failed") ∧
    (∃ summary,
      (generate_all_docs partialFailureEnv).phase2_summary = some summary ∧
      (⟨"t_api", "api_documentation", "api_documentation", "LLM timeout"⟩ :
        FailedTask) ∈ summary.failed) ∧
    (∃ es, (generate_all_docs partialFailureEnv).execution_summary = some es ∧
      "api_documentation" ∈ es.failed_documents) := by
  have hroot : rootTaskPresent partialFailureEnv :=
    ⟨⟨sampleReqTask, by decide, rfl, by rfl⟩, by decide⟩
  have hA := (generate_all_docs_failure_containment rootFailedEnv).1
    (fun t ht hag => rfl)
  have hB := (generate_all_docs_failure_containment partialFailureEnv).2.1
    sampleCharterTask (by decide) (by rfl) (by decide) (by decide)
    (by decide) (by decide) (by decide) hroot rfl rfl
  have hC := (generate_all_docs_failure_containment partialFailureEnv).2.2
    sampleApiTask (by decide) (some "LLM timeout") (by rfl) hroot rfl rfl
  exact ⟨hA, ⟨hB.1, hB.2.1⟩, hB.2.2 (by decide),
    hC.1 (by decide) (by decide) (by decide) (by decide), hC.2.1, hC.2.2.1⟩

/-- Claim C9: the hybrid workflow constructs its Phase-1 parallel executor
with a concurrency cap of 4 workers and its Phase-2 executor with a cap of
8 workers. -/
theorem workflow_executor_caps :
    phase1_executor.max_workers = 4 ∧ phase2_executor.max_workers = 8 :=
  ⟨rfl, rfl⟩

end Workflow
